import Mathlib

/-!
Verification development for the pixel-particle animation engine.

The development shallowly embeds the JavaScript sources:
* PerlinFlow (src/algorithms/perlin-flow.js and its superseded iteration): field
  generators and field sampling;
* ImageAnalyzer (region segmentation), PixelManipulator (particle arrays,
  position update, rasterizer);
* MovementEngine (per-tick pipeline, gravity wells, scatter, mirrors,
  scan-line interference, kaleidoscope, trails, scatter pulse).

Numbers: JavaScript floats are embedded as exact rationals wherever the code is
plain arithmetic, so every definition is computable and decidable on concrete
inputs.  Calls to transcendental primitives (Math.sqrt, Math.sin, Math.cos,
Math.atan2, Math.log, Math.PI) and to the unseeded random source (Math.random)
are threaded in as explicit oracle parameters of type functions over ℚ; the
field generators that are inherently transcendental are embedded over ℝ using
Mathlib real functions.  JavaScript comparisons such as sqrt(s) > t are encoded
by the equivalent square comparison where noted.
-/

namespace Spec2Proof

/-- Field vector record {x, y, magnitude} as produced by all flow generators,
over an arbitrary scalar type. -/
structure Vec (α : Type) where
  x : α
  y : α
  magnitude : α
  deriving DecidableEq, Repr

/-- Zero field vector {x: 0, y: 0, magnitude: 0}, the fallback of
PerlinFlow.sampleField. -/
def zeroVec : Vec ℚ := ⟨0, 0, 0⟩

/-- Linear interpolation, PerlinFlow.lerp: a + t * (b - a). -/
def lerp (a b t : ℚ) : ℚ := a + t * (b - a)

/-- Clamp of PerlinFlow.sampleField: x = Math.max(0, Math.min(width - 1, x)). -/
def clampCoord (w : ℕ) (x : ℚ) : ℚ := max 0 (min ((w : ℚ) - 1) x)

/-- PerlinFlow.sampleField: clamp both coordinates, index with
floor(y) * width + floor(x), and fall back to the zero vector when the array
entry is absent (JS: field[index] || {x:0,y:0,magnitude:0}).  A field is a
JS array possibly containing holes, embedded as a list of optional entries;
a negative index (impossible after the clamp, and JS would yield undefined)
also falls back to the zero vector. -/
def sampleField (field : List (Option (Vec ℚ))) (x y : ℚ) (w h : ℕ) : Vec ℚ :=
  let xc := clampCoord w x
  let yc := clampCoord h y
  let idx : ℤ := ⌊yc⌋ * w + ⌊xc⌋
  if 0 ≤ idx then (field.getD idx.toNat none).getD zeroVec else zeroVec

/-- PerlinFlow.bilinearSampleField: 4-tap bilinear interpolation of x, y and
magnitude over the four nearest grid cells, with x2/y2 clamped to the last
row/column. -/
def bilinearSampleField (field : List (Option (Vec ℚ))) (x y : ℚ) (w h : ℕ) :
    Vec ℚ :=
  let x1 : ℤ := ⌊x⌋
  let y1 : ℤ := ⌊y⌋
  let x2 : ℤ := min (x1 + 1) ((w : ℤ) - 1)
  let y2 : ℤ := min (y1 + 1) ((h : ℤ) - 1)
  let fx : ℚ := x - x1
  let fy : ℚ := y - y1
  let a := sampleField field x1 y1 w h
  let b := sampleField field x2 y1 w h
  let c := sampleField field x1 y2 w h
  let d := sampleField field x2 y2 w h
  let top : Vec ℚ := ⟨lerp a.x b.x fx, lerp a.y b.y fx, lerp a.magnitude b.magnitude fx⟩
  let bottom : Vec ℚ := ⟨lerp c.x d.x fx, lerp c.y d.y fx, lerp c.magnitude d.magnitude fx⟩
  ⟨lerp top.x bottom.x fy, lerp top.y bottom.y fy, lerp top.magnitude bottom.magnitude fy⟩

theorem lerp_zero (a b : ℚ) : lerp a b 0 = a := by
  simp [lerp]

theorem clampCoord_of_mem (w : ℕ) (m : ℕ) (hm : m < w) :
    clampCoord w (m : ℚ) = (m : ℚ) := by
  unfold clampCoord
  have h1 : (m : ℚ) ≤ (w : ℚ) - 1 := by
    have : (m : ℚ) + 1 ≤ (w : ℚ) := by exact_mod_cast Nat.succ_le_of_lt hm
    linarith
  rw [min_eq_right h1, max_eq_right (by positivity)]

theorem clampCoord_nonneg (w : ℕ) (x : ℚ) : 0 ≤ clampCoord w x :=
  le_max_left 0 _

theorem clampCoord_le (w : ℕ) (x : ℚ) (hw : 1 ≤ w) :
    clampCoord w x ≤ (w : ℚ) - 1 := by
  unfold clampCoord
  have h1 : (0 : ℚ) ≤ (w : ℚ) - 1 := by
    have : (1 : ℚ) ≤ (w : ℚ) := by exact_mod_cast hw
    linarith
  exact max_le h1 (min_le_left _ _)

/-- Helper: the index computed by sampleField at in-range integer coordinates. -/
theorem sampleField_at_int (field : List (Option (Vec ℚ))) (m n w h : ℕ)
    (hm : m < w) (hn : n < h) :
    sampleField field (m : ℚ) (n : ℚ) w h =
      (field.getD (n * w + m) none).getD zeroVec := by
  unfold sampleField
  rw [clampCoord_of_mem w m hm, clampCoord_of_mem h n hn]
  have hfm : (⌊(m : ℚ)⌋ : ℤ) = (m : ℤ) := by simp
  have hfn : (⌊(n : ℚ)⌋ : ℤ) = (n : ℤ) := by simp
  simp only [hfm, hfn]
  have hge : (0 : ℤ) ≤ (n : ℤ) * (w : ℤ) + (m : ℤ) := by positivity
  have hidx : ((n : ℤ) * (w : ℤ) + (m : ℤ)).toNat = n * w + m := by
    rw [show (n : ℤ) * (w : ℤ) + (m : ℤ) = ((n * w + m : ℕ) : ℤ) by push_cast; ring,
      Int.toNat_natCast]
  rw [if_pos hge, hidx]

/-- C5.  At integer grid coordinates (x, y) with 0 ≤ x < width and
0 ≤ y < height, bilinear field sampling returns exactly the same x, y and
magnitude as nearest (clamped) sampling: both fractional offsets are 0, so
every lerp collapses onto its first tap. -/
theorem bilinear_eq_nearest_at_integer_coords
    (field : List (Option (Vec ℚ))) (w h : ℕ) (m n : ℕ) (x y : ℚ)
    (hx : x = (m : ℚ)) (hy : y = (n : ℚ)) (hm : m < w) (hn : n < h) :
    bilinearSampleField field x y w h = sampleField field x y w h := by
  subst hx; subst hy
  unfold bilinearSampleField
  have hfm : (⌊(m : ℚ)⌋ : ℤ) = (m : ℤ) := by simp
  have hfn : (⌊(n : ℚ)⌋ : ℤ) = (n : ℤ) := by simp
  simp only [hfm, hfn]
  have hfx : (m : ℚ) - ((m : ℤ) : ℚ) = 0 := by push_cast; ring
  have hfy : (n : ℚ) - ((n : ℤ) : ℚ) = 0 := by push_cast; ring
  simp only [hfx, hfy, lerp_zero]
  push_cast
  rfl

/-- C5 witness: at the concrete grid point (1, 0) of a 2×1 field the bilinear
sample equals the nearest sample. -/
theorem bilinear_eq_nearest_at_integer_coords_witness :
    bilinearSampleField [some ⟨1, 2, 3⟩, some ⟨4, 5, 6⟩] 1 0 2 1 =
      sampleField [some ⟨1, 2, 3⟩, some ⟨4, 5, 6⟩] 1 0 2 1 :=
  bilinear_eq_nearest_at_integer_coords [some ⟨1, 2, 3⟩, some ⟨4, 5, 6⟩]
    2 1 1 0 1 0 (by norm_num) (by norm_num) (by decide) (by decide)

/-- C9.  Nearest-neighbour sampling is total: for every field array and all
rational coordinates (arbitrarily far out of range) the clamped coordinates
land in [0, width-1] × [0, height-1], and the result is either an entry
actually present in the field array or the zero vector; when the indexed entry
is absent the result is exactly the zero vector {x:0, y:0, magnitude:0}. -/
theorem sampleField_total (field : List (Option (Vec ℚ))) (x y : ℚ) (w h : ℕ)
    (hw : 1 ≤ w) (hh : 1 ≤ h) :
    (0 ≤ clampCoord w x ∧ clampCoord w x ≤ (w : ℚ) - 1 ∧
      0 ≤ clampCoord h y ∧ clampCoord h y ≤ (h : ℚ) - 1) ∧
    ((∃ v : Vec ℚ, some v ∈ field ∧ sampleField field x y w h = v) ∨
      sampleField field x y w h = zeroVec) := by
  refine ⟨⟨clampCoord_nonneg w x, clampCoord_le w x hw,
    clampCoord_nonneg h y, clampCoord_le h y hh⟩, ?_⟩
  unfold sampleField
  by_cases hge : (0 : ℤ) ≤ ⌊clampCoord h y⌋ * w + ⌊clampCoord w x⌋
  · rw [if_pos hge]
    rcases hv : (field.getD (⌊clampCoord h y⌋ * w + ⌊clampCoord w x⌋).toNat none) with _ | v
    · right; rfl
    · left
      refine ⟨v, ?_, rfl⟩
      have hg := List.getD_eq_getElem?_getD field
        ((⌊clampCoord h y⌋ * w + ⌊clampCoord w x⌋).toNat) none
      rw [hg] at hv
      rcases he : field[(⌊clampCoord h y⌋ * w + ⌊clampCoord w x⌋).toNat]? with _ | e
      · rw [he] at hv; simp at hv
      · rw [he] at hv
        simp only [Option.getD_some] at hv
        subst hv
        exact List.getElem?_mem he
  · rw [if_neg hge]
    right; rfl

/-- C9 witness: sampling a 1-entry 1×1 field at the far out-of-range point
(−7, 99) is total, in particular the clamped coordinates land on (0, 0). -/
theorem sampleField_total_witness :
    ((0 ≤ clampCoord 1 (-7) ∧ clampCoord 1 (-7) ≤ (1 : ℚ) - 1 ∧
      0 ≤ clampCoord 1 99 ∧ clampCoord 1 99 ≤ (1 : ℚ) - 1) ∧
    ((∃ v : Vec ℚ, some v ∈ [some (⟨5, 6, 7⟩ : Vec ℚ)] ∧
        sampleField [some ⟨5, 6, 7⟩] (-7) 99 1 1 = v) ∨
      sampleField [some ⟨5, 6, 7⟩] (-7) 99 1 1 = zeroVec)) :=
  sampleField_total [some ⟨5, 6, 7⟩] (-7) 99 1 1 (by decide) (by decide)

/-! ### Region segmentation (ImageAnalyzer) -/

/-- RGB color triple as read from the RGBA byte buffer. -/
structure Rgb where
  r : ℕ
  g : ℕ
  b : ℕ
  deriving DecidableEq, Repr

/-- Color of pixel idx in the RGBA buffer: data[idx*4 .. idx*4+2]. -/
def pixelColor (data : List ℕ) (idx : ℕ) : Rgb :=
  ⟨data.getD (idx * 4) 0, data.getD (idx * 4 + 1) 0, data.getD (idx * 4 + 2) 0⟩

/-- Squared color distance dr² + dg² + db² of ImageAnalyzer.colorDistance. -/
def colorDistSq (c1 c2 : Rgb) : ℤ :=
  let dr : ℤ := (c1.r : ℤ) - c2.r
  let dg : ℤ := (c1.g : ℤ) - c2.g
  let db : ℤ := (c1.b : ℤ) - c2.b
  dr * dr + dg * dg + db * db

/-- ImageAnalyzer.colorDistance compared against the threshold.  The source
computes Math.sqrt(dr²+dg²+db²) > threshold; this is encoded without the
square root as the equivalent cross-multiplied test
dr²+dg²+db² · den(t)² > num(t)² (for a negative threshold the JS test is
always true since sqrt ≥ 0).  The lemma colorDistGT_spec below proves the
encoding equivalent to the square comparison over ℚ. -/
def colorDistGT (c1 c2 : Rgb) (t : ℚ) : Bool :=
  if t < 0 then true
  else decide (t.num * t.num < colorDistSq c1 c2 * (t.den : ℤ) * (t.den : ℤ))

/-- Correctness of the square-root-free threshold encoding: for a
non-negative threshold the Boolean test of colorDistGT holds exactly when
the squared distance exceeds the squared threshold in ℚ. -/
theorem colorDistGT_spec (c1 c2 : Rgb) (t : ℚ) (ht : 0 ≤ t) :
    colorDistGT c1 c2 t = true ↔ t * t < ((colorDistSq c1 c2 : ℤ) : ℚ) := by
  unfold colorDistGT
  rw [if_neg (not_lt.mpr ht)]
  rw [decide_eq_true_iff]
  have hden : (0 : ℚ) < (t.den : ℚ) := by exact_mod_cast t.pos
  constructor
  · intro hlt
    have hq : ((t.num * t.num : ℤ) : ℚ) <
        ((colorDistSq c1 c2 * (t.den : ℤ) * (t.den : ℤ) : ℤ) : ℚ) := by
      exact_mod_cast hlt
    push_cast at hq
    have ht2 : t = (t.num : ℚ) / (t.den : ℚ) := (Rat.num_div_den t).symm
    rw [ht2, div_mul_div_comm, div_lt_iff (by positivity)]
    linarith [hq]
  · intro hlt
    have ht2 : t = (t.num : ℚ) / (t.den : ℚ) := (Rat.num_div_den t).symm
    rw [ht2, div_mul_div_comm, div_lt_iff (by positivity)] at hlt
    have hq : ((t.num * t.num : ℤ) : ℚ) <
        ((colorDistSq c1 c2 * (t.den : ℤ) * (t.den : ℤ) : ℤ) : ℚ) := by
      push_cast
      linarith [hlt]
    exact_mod_cast hq

/-- Pixel record {x, y, index} pushed by regionGrow. -/
structure Px where
  x : ℕ
  y : ℕ
  idx : ℕ
  deriving DecidableEq, Repr

/-- Mutable locals of ImageAnalyzer.regionGrow besides the stack: the shared
visited array, the accumulated pixels, color sums and bounding box.  JS
initialises minX = width, maxX = 0, minY = height, maxY = 0. -/
structure GrowState where
  visited : List Bool
  pixels : List Px
  totR : ℕ
  totG : ℕ
  totB : ℕ
  minX : ℕ
  maxX : ℕ
  minY : ℕ
  maxY : ℕ
  deriving Repr

/-- While loop of ImageAnalyzer.regionGrow.  Each iteration pops the top of
the stack; out-of-bounds, already-visited or color-distant pixels are skipped,
otherwise the pixel is marked visited, accumulated, and its four neighbours
are pushed (JS pushes x+1, x-1, y+1, y-1 in that order onto the array end, so
they pop in the reverse order).  The loop is embedded with explicit fuel; the
JS loop terminates because every iteration pops one entry and pushes only when
an unvisited cell is consumed. -/
def regionGrowLoop (data : List ℕ) (w h : ℕ) (t : ℚ) (seed : Rgb) :
    ℕ → List (ℤ × ℤ) → GrowState → GrowState
  | 0, _, s => s
  | _ + 1, [], s => s
  | fuel + 1, (x, y) :: rest, s =>
    if x < 0 ∨ (w : ℤ) ≤ x ∨ y < 0 ∨ (h : ℤ) ≤ y then
      regionGrowLoop data w h t seed fuel rest s
    else
      let xn := x.toNat
      let yn := y.toNat
      let idx := yn * w + xn
      if s.visited.getD idx false then
        regionGrowLoop data w h t seed fuel rest s
      else
        let c := pixelColor data idx
        if colorDistGT seed c t then
          regionGrowLoop data w h t seed fuel rest s
        else
          regionGrowLoop data w h t seed fuel
            ((x, y - 1) :: (x, y + 1) :: (x - 1, y) :: (x + 1, y) :: rest)
            { visited := s.visited.set idx true
              pixels := s.pixels ++ [⟨xn, yn, idx⟩]
              totR := s.totR + c.r
              totG := s.totG + c.g
              totB := s.totB + c.b
              minX := min s.minX xn
              maxX := max s.maxX xn
              minY := min s.minY yn
              maxY := max s.maxY yn }

/-- Fuel sufficient to drain the regionGrow stack: at most 1 + 4·w·h pushes
ever happen, and every iteration pops one entry. -/
def growFuel (w h : ℕ) : ℕ := 4 * (w * h) + 1

/-- Math.round as JavaScript defines it: round half toward positive
infinity. -/
def jsRound (q : ℚ) : ℤ := ⌊q + 1 / 2⌋

/-- Math.round(a / b) for natural a, b computed purely over ℕ:
round(a/b) = floor((2a + b) / 2b).  Used for the average color channels of a
region; jsRoundDiv_spec below proves it against the rational rounding. -/
def jsRoundDiv (a b : ℕ) : ℕ := (2 * a + b) / (2 * b)

/-- Correctness of the ℕ-level rounding: for positive divisor it agrees with
Math.round of the exact rational quotient. -/
theorem jsRoundDiv_spec (a b : ℕ) (hb : 0 < b) :
    (jsRoundDiv a b : ℤ) = jsRound ((a : ℚ) / (b : ℚ)) := by
  unfold jsRoundDiv jsRound
  have hb2 : 0 < 2 * b := by omega
  have hq2 : (0 : ℚ) < ((2 * b : ℕ) : ℚ) := by exact_mod_cast hb2
  have key : (a : ℚ) / (b : ℚ) + 1 / 2 = ((2 * a + b : ℕ) : ℚ) / ((2 * b : ℕ) : ℚ) := by
    have hbq : (0 : ℚ) < (b : ℚ) := by exact_mod_cast hb
    push_cast
    field_simp
    ring
  rw [key]
  set q := (2 * a + b) / (2 * b) with hqdef
  set r := (2 * a + b) % (2 * b) with hrdef
  have hmod : 2 * b * q + r = 2 * a + b := Nat.div_add_mod (2 * a + b) (2 * b)
  have hlt : r < 2 * b := Nat.mod_lt _ hb2
  have hcast : (2 : ℚ) * b * q + r = 2 * a + b := by exact_mod_cast hmod
  have hltq : (r : ℚ) < 2 * b := by exact_mod_cast hlt
  have hr0 : (0 : ℚ) ≤ (r : ℚ) := by positivity
  symm
  rw [Int.floor_eq_iff]
  constructor
  · rw [le_div_iff₀ hq2]
    push_cast
    nlinarith [hcast, hr0]
  · rw [div_lt_iff₀ hq2]
    push_cast
    nlinarith [hcast, hltq]

/-- Region record returned by ImageAnalyzer.regionGrow: pixels, average color,
brightness, bounding box, center, size.  When the pixel list is empty the JS
averages are NaN (0/0); the embedding yields 0 there (rational division by
zero), which no claim exercises since a non-negative threshold always accepts
the seed pixel. -/
structure Region where
  pixels : List Px
  avgR : ℕ
  avgG : ℕ
  avgB : ℕ
  brightness : ℚ
  minX : ℕ
  maxX : ℕ
  minY : ℕ
  maxY : ℕ
  centerX : ℚ
  centerY : ℚ
  size : ℕ
  deriving Repr

/-- ImageAnalyzer.regionGrow: run the grow loop from the seed, then derive
average color (Math.round of the channel mean, computed by jsRoundDiv),
brightness (0.299·r + 0.587·g + 0.114·b)/255, bounds and center.  Returns the
region together with the updated shared visited array. -/
def regionGrow (data : List ℕ) (w h : ℕ) (t : ℚ) (sx sy : ℕ)
    (visited : List Bool) : Region × List Bool :=
  let seed := pixelColor data (sy * w + sx)
  let fin := regionGrowLoop data w h t seed (growFuel w h) [((sx : ℤ), (sy : ℤ))]
    ⟨visited, [], 0, 0, 0, w, 0, h, 0⟩
  let len := fin.pixels.length
  let avgR := jsRoundDiv fin.totR len
  let avgG := jsRoundDiv fin.totG len
  let avgB := jsRoundDiv fin.totB len
  let brightness := ((avgR : ℚ) * 0.299 + (avgG : ℚ) * 0.587 + (avgB : ℚ) * 0.114) / 255
  (⟨fin.pixels, avgR, avgG, avgB, brightness, fin.minX, fin.maxX, fin.minY, fin.maxY,
    ((fin.minX : ℚ) + fin.maxX) / 2, ((fin.minY : ℚ) + fin.maxY) / 2, len⟩,
   fin.visited)

/-- Row-major seed order of ImageAnalyzer.segmentImage: y outer, x inner. -/
def segmentSeeds (w h : ℕ) : List (ℕ × ℕ) :=
  (List.range h).flatMap (fun y => (List.range w).map (fun x => (x, y)))

/-- Main loop of ImageAnalyzer.segmentImage: for every unvisited seed grow a
region, keep it only when it has more than 50 pixels (JS:
region.pixels.length > 50). -/
def segmentLoop (data : List ℕ) (w h : ℕ) (t : ℚ) :
    List (ℕ × ℕ) → List Bool → List Region → List Region × List Bool
  | [], visited, acc => (acc, visited)
  | (x, y) :: rest, visited, acc =>
    if visited.getD (y * w + x) false then
      segmentLoop data w h t rest visited acc
    else
      let grown := regionGrow data w h t x y visited
      if 50 < grown.1.pixels.length then
        segmentLoop data w h t rest grown.2 (acc ++ [grown.1])
      else
        segmentLoop data w h t rest grown.2 acc

/-- Consolidated region as produced by ImageAnalyzer.consolidateRegions:
the grown region plus id, hue, saturation, movement vector, velocity
multiplier and mass. -/
structure RegionOut where
  pixels : List Px
  avgR : ℕ
  avgG : ℕ
  avgB : ℕ
  brightness : ℚ
  minX : ℕ
  maxX : ℕ
  minY : ℕ
  maxY : ℕ
  centerX : ℚ
  centerY : ℚ
  size : ℕ
  id : ℕ
  hue : ℚ
  saturation : ℚ
  movementVectorX : ℚ
  movementVectorY : ℚ
  velocityMultiplier : ℚ
  mass : ℚ
  deriving Repr

/-- ImageAnalyzer.rgbToHue: normalise to [0,1], then the standard RGB→hue
switch on the channel attaining the maximum, scaled by 60. -/
def rgbToHue (cr cg cb : ℕ) : ℚ :=
  let r := (cr : ℚ) / 255
  let g := (cg : ℚ) / 255
  let b := (cb : ℚ) / 255
  let mx := max r (max g b)
  let mn := min r (min g b)
  let diff := mx - mn
  if diff = 0 then 0
  else
    (if mx = r then (g - b) / diff + (if g < b then 6 else 0)
     else if mx = g then (b - r) / diff + 2
     else (r - g) / diff + 4) * 60

/-- ImageAnalyzer.rgbToSaturation. -/
def rgbToSaturation (cr cg cb : ℕ) : ℚ :=
  let r := (cr : ℚ) / 255
  let g := (cg : ℚ) / 255
  let b := (cb : ℚ) / 255
  let mx := max r (max g b)
  let mn := min r (min g b)
  if mx = 0 then 0 else (mx - mn) / mx

/-- ImageAnalyzer.calculateVelocityMultiplier.  Math.pow(1−brightness, 0.5),
Math.log and Math.random are threaded in as oracles powHalfF, logF and randF
(randF indexed by the region position in the consolidated list). -/
def calculateVelocityMultiplier (powHalfF logF : ℚ → ℚ) (rnd : ℚ)
    (r : Region) : ℚ :=
  let brightnessFactor := powHalfF (1 - r.brightness)
  let sizeFactor := 1 / (1 + logF (r.size) / 1000)
  brightnessFactor * sizeFactor * (1 / 2 + rnd * (1 / 2))

/-- Stable insertion of a region into a size-descending list: the region goes
in front of the first entry whose size does not exceed its own, so that
earlier regions keep their relative order on ties. -/
def insertBySizeDesc (r : Region) : List Region → List Region
  | [] => [r]
  | a :: rest =>
    if a.size ≤ r.size then r :: a :: rest else a :: insertBySizeDesc r rest

/-- Embedding of regions.sort((a, b) => b.size - a.size): a stable
size-descending sort (Array.prototype.sort is stable in every modern engine),
written as a structurally recursive insertion sort. -/
def sortBySizeDesc : List Region → List Region
  | [] => []
  | r :: rest => insertBySizeDesc r (sortBySizeDesc rest)

theorem insertBySizeDesc_perm (r : Region) (l : List Region) :
    (insertBySizeDesc r l).Perm (r :: l) := by
  induction l with
  | nil => exact List.Perm.refl _
  | cons a rest ih =>
    unfold insertBySizeDesc
    by_cases hgt : a.size ≤ r.size
    · rw [if_pos hgt]
    · rw [if_neg hgt]
      exact List.Perm.trans (List.Perm.cons a ih) (List.Perm.swap r a rest)

theorem sortBySizeDesc_perm (l : List Region) : (sortBySizeDesc l).Perm l := by
  induction l with
  | nil => exact List.Perm.refl _
  | cons r rest ih =>
    unfold sortBySizeDesc
    exact List.Perm.trans (insertBySizeDesc_perm r (sortBySizeDesc rest))
      (List.Perm.cons r ih)

/-- ImageAnalyzer.consolidateRegions: sort by size descending, keep the first
min(100, n) regions, then attach id, hue, saturation, zero movement vector,
velocity multiplier and mass = log(size+1)/10. -/
def consolidateRegions (powHalfF logF : ℚ → ℚ) (randF : ℕ → ℚ)
    (regions : List Region) : List RegionOut :=
  let sorted := sortBySizeDesc regions
  let significant := sorted.take (min 100 sorted.length)
  significant.enum.map (fun ir =>
    let i := ir.1
    let r := ir.2
    ⟨r.pixels, r.avgR, r.avgG, r.avgB, r.brightness, r.minX, r.maxX, r.minY,
      r.maxY, r.centerX, r.centerY, r.size, i,
      rgbToHue r.avgR r.avgG r.avgB, rgbToSaturation r.avgR r.avgG r.avgB,
      0, 0,
      calculateVelocityMultiplier powHalfF logF (randF i) r,
      logF ((r.size : ℚ) + 1) / 10⟩)

/-- ImageAnalyzer.segmentImage: fresh all-false visited array of size
width·height, row-major growth, then consolidation. -/
def segmentImage (powHalfF logF : ℚ → ℚ) (randF : ℕ → ℚ)
    (data : List ℕ) (w h : ℕ) (t : ℚ) : List RegionOut :=
  consolidateRegions powHalfF logF randF
    (segmentLoop data w h t (segmentSeeds w h) (List.replicate (w * h) false) []).1

/-- Uniform 4×4 black RGBA image: 16 pixels of (0,0,0,255). -/
def blackImage4 : List ℕ := (List.range 16).flatMap (fun _ => [0, 0, 0, 255])

/-- C1 counterexample: on the 4×4 uniform black image with threshold 30,
segmentation returns the empty region list — not one region — because the
single grown 16-pixel region fails the strict minimum-size test
pixels.length > 50 in segmentImage. -/
theorem segmentImage_black4_not_one_region :
    (segmentImage (fun q => q) (fun q => q) (fun _ => 0) blackImage4 4 4 30).length
      ≠ 1 := by
  decide

/-- C1 amended.  On the 4×4 uniform black image with threshold 30 the region
grown from seed (0,0) covers all 16 pixels with brightness 0 and bounding box
minX=0, maxX=3, minY=0, maxY=3, but segmentImage discards it (only regions
with more than 50 pixels are kept) and returns the empty list. -/
theorem segmentImage_black4_grow_and_filter :
    ((regionGrow blackImage4 4 4 30 0 0 (List.replicate 16 false)).1.size = 16 ∧
     (regionGrow blackImage4 4 4 30 0 0 (List.replicate 16 false)).1.brightness = 0 ∧
     (regionGrow blackImage4 4 4 30 0 0 (List.replicate 16 false)).1.minX = 0 ∧
     (regionGrow blackImage4 4 4 30 0 0 (List.replicate 16 false)).1.maxX = 3 ∧
     (regionGrow blackImage4 4 4 30 0 0 (List.replicate 16 false)).1.minY = 0 ∧
     (regionGrow blackImage4 4 4 30 0 0 (List.replicate 16 false)).1.maxY = 3) ∧
    segmentImage (fun q => q) (fun q => q) (fun _ => 0) blackImage4 4 4 30 = [] := by
  refine ⟨⟨by decide, ?_, by decide, by decide, by decide, by decide⟩, rfl⟩
  have hravg : (regionGrow blackImage4 4 4 30 0 0 (List.replicate 16 false)).1.avgR = 0 := by
    decide
  have hgavg : (regionGrow blackImage4 4 4 30 0 0 (List.replicate 16 false)).1.avgG = 0 := by
    decide
  have hbavg : (regionGrow blackImage4 4 4 30 0 0 (List.replicate 16 false)).1.avgB = 0 := by
    decide
  have hb : (regionGrow blackImage4 4 4 30 0 0 (List.replicate 16 false)).1.brightness =
      (((regionGrow blackImage4 4 4 30 0 0 (List.replicate 16 false)).1.avgR : ℚ) * 0.299 +
       ((regionGrow blackImage4 4 4 30 0 0 (List.replicate 16 false)).1.avgG : ℚ) * 0.587 +
       ((regionGrow blackImage4 4 4 30 0 0 (List.replicate 16 false)).1.avgB : ℚ) * 0.114) / 255 :=
    rfl
  rw [hb, hravg, hgavg, hbavg]
  norm_num

/-! ### C4: regions are pairwise disjoint and cover at most width·height pixels -/

theorem getD_set_true (l : List Bool) (i : ℕ) (hi : i < l.length) :
    (l.set i true).getD i false = true := by
  simp [List.getD_eq_getElem?_getD, List.getElem?_set_self, hi]

theorem getD_set_other (l : List Bool) (i j : ℕ) (a : Bool) (h : j ≠ i) :
    (l.set i a).getD j false = l.getD j false := by
  simp [List.getD_eq_getElem?_getD, List.getElem?_set_ne (Ne.symm h)]

theorem getD_set_mono (l : List Bool) (i j : ℕ)
    (h : l.getD j false = true) : (l.set i true).getD j false = true := by
  by_cases hij : j = i
  · subst hij
    by_cases hilen : j < l.length
    · exact getD_set_true l j hilen
    · rw [List.set_eq_of_length_le (by omega)]
      exact h
  · rw [getD_set_other l i j true hij]
    exact h

/-- Core invariant of the regionGrow DFS loop, for every fuel value: the
visited array keeps its length, already-visited cells stay visited, and the
pixels added by the loop are exactly a block of fresh cells — each was
unvisited on entry, is visited on exit, lies inside the w·h grid, and no cell
is added twice. -/
theorem regionGrowLoop_invariant (data : List ℕ) (w h : ℕ) (t : ℚ) (seed : Rgb) :
    ∀ (fuel : ℕ) (stack : List (ℤ × ℤ)) (s : GrowState), s.visited.length = w * h →
      (regionGrowLoop data w h t seed fuel stack s).visited.length = w * h ∧
      (∀ j, s.visited.getD j false = true →
        (regionGrowLoop data w h t seed fuel stack s).visited.getD j false = true) ∧
      ∃ news, (regionGrowLoop data w h t seed fuel stack s).pixels = s.pixels ++ news ∧
        (∀ p ∈ news, p.idx < w * h ∧ s.visited.getD p.idx false = false ∧
          (regionGrowLoop data w h t seed fuel stack s).visited.getD p.idx false = true) ∧
        (news.map Px.idx).Nodup := by
  intro fuel
  induction fuel with
  | zero =>
    intro stack s hlen
    refine ⟨hlen, fun j hj => hj, [], by simp [regionGrowLoop], ?_, List.nodup_nil⟩
    intro p hp
    simp at hp
  | succ fuel ih =>
    intro stack s hlen
    rcases stack with _ | ⟨⟨x, y⟩, rest⟩
    · refine ⟨hlen, fun j hj => hj, [], by simp [regionGrowLoop], ?_, List.nodup_nil⟩
      intro p hp
      simp at hp
    · by_cases hob : x < 0 ∨ (w : ℤ) ≤ x ∨ y < 0 ∨ (h : ℤ) ≤ y
      · have heq : regionGrowLoop data w h t seed (fuel + 1) ((x, y) :: rest) s =
            regionGrowLoop data w h t seed fuel rest s := by
          rw [regionGrowLoop, if_pos hob]
        rw [heq]
        exact ih rest s hlen
      · by_cases hvis : s.visited.getD (y.toNat * w + x.toNat) false
        · have heq : regionGrowLoop data w h t seed (fuel + 1) ((x, y) :: rest) s =
              regionGrowLoop data w h t seed fuel rest s := by
            rw [regionGrowLoop, if_neg hob]
            simp only [hvis]
            rfl
          rw [heq]
          exact ih rest s hlen
        · by_cases hcol : colorDistGT seed (pixelColor data (y.toNat * w + x.toNat)) t
          · have heq : regionGrowLoop data w h t seed (fuel + 1) ((x, y) :: rest) s =
                regionGrowLoop data w h t seed fuel rest s := by
              rw [regionGrowLoop, if_neg hob]
              simp only [Bool.not_eq_true] at hvis
              simp only [hvis]
              simp only [hcol]
              rfl
            rw [heq]
            exact ih rest s hlen
          · -- accept branch: mark visited, record pixel, push neighbours
            set xn := x.toNat with hxn
            set yn := y.toNat with hyn
            set idx := yn * w + xn with hidx
            set c := pixelColor data idx with hc
            set stack2 : List (ℤ × ℤ) :=
              (x, y - 1) :: (x, y + 1) :: (x - 1, y) :: (x + 1, y) :: rest with hstack2
            set s2 : GrowState :=
              { visited := s.visited.set idx true
                pixels := s.pixels ++ [⟨xn, yn, idx⟩]
                totR := s.totR + c.r
                totG := s.totG + c.g
                totB := s.totB + c.b
                minX := min s.minX xn
                maxX := max s.maxX xn
                minY := min s.minY yn
                maxY := max s.maxY yn } with hs2
            have heq : regionGrowLoop data w h t seed (fuel + 1) ((x, y) :: rest) s =
                regionGrowLoop data w h t seed fuel stack2 s2 := by
              rw [regionGrowLoop, if_neg hob]
              simp only [Bool.not_eq_true] at hvis
              simp only [hvis]
              simp only [Bool.not_eq_true] at hcol
              simp only [hcol]
              rfl
            have hlen2 : s2.visited.length = w * h := by
              rw [hs2]
              simpa using hlen
            obtain ⟨ihlen, ihmono, news2, ihpix, ihfresh, ihnodup⟩ := ih stack2 s2 hlen2
            rw [heq]
            push_neg at hob
            obtain ⟨hx0, hxw, hy0, hyh⟩ := hob
            have hxnw : xn < w := by omega
            have hynh : yn < h := by omega
            have hidxlt : idx < w * h := by
              have h3 : (yn + 1) * w ≤ h * w := Nat.mul_le_mul_right w (by omega)
              calc idx < (yn + 1) * w := by
                    rw [Nat.add_mul, Nat.one_mul]
                    omega
                _ ≤ h * w := h3
                _ = w * h := Nat.mul_comm h w
            have hidxlen : idx < s.visited.length := by omega
            have hvisfalse : s.visited.getD idx false = false := by
              simpa using hvis
            have hs2true : s2.visited.getD idx false = true := by
              rw [hs2]
              exact getD_set_true s.visited idx hidxlen
            refine ⟨ihlen, ?_, ⟨xn, yn, idx⟩ :: news2, ?_, ?_, ?_⟩
            · intro j hj
              apply ihmono
              rw [hs2]
              exact getD_set_mono s.visited idx j hj
            · rw [ihpix, hs2]
              simp
            · intro p hp
              rcases List.mem_cons.mp hp with hphead | hptail
              · subst hphead
                exact ⟨hidxlt, hvisfalse, ihmono idx hs2true⟩
              · obtain ⟨hpidx, hpfresh, hpvis⟩ := ihfresh p hptail
                refine ⟨hpidx, ?_, hpvis⟩
                by_cases hpi : p.idx = idx
                · exfalso
                  rw [hpi] at hpfresh
                  rw [hs2true] at hpfresh
                  simp at hpfresh
                · rw [hs2] at hpfresh
                  rw [getD_set_other s.visited idx p.idx true hpi] at hpfresh
                  exact hpfresh
            · rw [List.map_cons, List.nodup_cons]
              refine ⟨?_, ihnodup⟩
              intro hmem
              obtain ⟨p, hp, hpeq⟩ := List.mem_map.mp hmem
              obtain ⟨_, hpfresh, _⟩ := ihfresh p hp
              rw [hpeq, hs2true] at hpfresh
              simp at hpfresh

/-- Invariant of ImageAnalyzer.regionGrow: on a visited array of the correct
size the grown region consists of pairwise distinct fresh in-grid cells, all
marked visited afterwards, and previously visited cells stay visited. -/
theorem regionGrow_invariant (data : List ℕ) (w h : ℕ) (t : ℚ) (sx sy : ℕ)
    (visited : List Bool) (hlen : visited.length = w * h) :
    (regionGrow data w h t sx sy visited).2.length = w * h ∧
    (∀ j, visited.getD j false = true →
      (regionGrow data w h t sx sy visited).2.getD j false = true) ∧
    (∀ p ∈ (regionGrow data w h t sx sy visited).1.pixels,
      p.idx < w * h ∧ visited.getD p.idx false = false ∧
      (regionGrow data w h t sx sy visited).2.getD p.idx false = true) ∧
    ((regionGrow data w h t sx sy visited).1.pixels.map Px.idx).Nodup := by
  obtain ⟨h1, h2, news, h3, h4, h5⟩ := regionGrowLoop_invariant data w h t
    (pixelColor data (sy * w + sx)) (growFuel w h) [((sx : ℤ), (sy : ℤ))]
    ⟨visited, [], 0, 0, 0, w, 0, h, 0⟩ hlen
  have hpix : (regionGrow data w h t sx sy visited).1.pixels =
      (regionGrowLoop data w h t (pixelColor data (sy * w + sx)) (growFuel w h)
        [((sx : ℤ), (sy : ℤ))] ⟨visited, [], 0, 0, 0, w, 0, h, 0⟩).pixels := rfl
  have hvis2 : (regionGrow data w h t sx sy visited).2 =
      (regionGrowLoop data w h t (pixelColor data (sy * w + sx)) (growFuel w h)
        [((sx : ℤ), (sy : ℤ))] ⟨visited, [], 0, 0, 0, w, 0, h, 0⟩).visited := rfl
  rw [List.nil_append] at h3
  rw [hpix, hvis2, h3]
  exact ⟨h1, h2, h4, h5⟩

/-- Invariant of the segmentImage scan: visited keeps its size, the collected
regions only contain in-grid pixels each marked visited, and the
concatenation of all collected pixel indices has no duplicate. -/
theorem segmentLoop_invariant (data : List ℕ) (w h : ℕ) (t : ℚ) :
    ∀ (seeds : List (ℕ × ℕ)) (visited : List Bool) (acc : List Region),
      visited.length = w * h →
      (∀ r ∈ acc, ∀ p ∈ r.pixels, p.idx < w * h ∧ visited.getD p.idx false = true) →
      ((acc.flatMap (fun r => r.pixels.map Px.idx)).Nodup) →
      (∀ r ∈ (segmentLoop data w h t seeds visited acc).1, ∀ p ∈ r.pixels,
        p.idx < w * h) ∧
      (((segmentLoop data w h t seeds visited acc).1.flatMap
        (fun r => r.pixels.map Px.idx)).Nodup) := by
  intro seeds
  induction seeds with
  | nil =>
    intro visited acc hlen hacc hnodup
    exact ⟨fun r hr p hp => (hacc r hr p hp).1, hnodup⟩
  | cons seed rest ih =>
    obtain ⟨x, y⟩ := seed
    intro visited acc hlen hacc hnodup
    by_cases hv : visited.getD (y * w + x) false
    · have heq : segmentLoop data w h t ((x, y) :: rest) visited acc =
          segmentLoop data w h t rest visited acc := by
        rw [segmentLoop]
        simp only [hv]
        rfl
      rw [heq]
      exact ih visited acc hlen hacc hnodup
    · obtain ⟨g1, g2, g3, g4⟩ := regionGrow_invariant data w h t x y visited hlen
      by_cases hsize : 50 < (regionGrow data w h t x y visited).1.pixels.length
      · have heq : segmentLoop data w h t ((x, y) :: rest) visited acc =
            segmentLoop data w h t rest (regionGrow data w h t x y visited).2
              (acc ++ [(regionGrow data w h t x y visited).1]) := by
          rw [segmentLoop]
          simp only [Bool.not_eq_true] at hv
          simp only [hv, Bool.false_eq_true, if_false]
          simp only [if_pos hsize]
        rw [heq]
        apply ih _ _ g1
        · intro r hr p hp
          rcases List.mem_append.mp hr with hrold | hrnew
          · obtain ⟨hb, hvt⟩ := hacc r hrold p hp
            exact ⟨hb, g2 p.idx hvt⟩
          · rw [List.mem_singleton] at hrnew
            subst hrnew
            obtain ⟨hb, _, hvt⟩ := g3 p hp
            exact ⟨hb, hvt⟩
        · rw [List.flatMap_append]
          rw [List.nodup_append]
          refine ⟨hnodup, by simpa using g4, ?_⟩
          intro i hiacc hinew
          obtain ⟨r, hr, hir⟩ := List.mem_flatMap.mp hiacc
          obtain ⟨p, hp, hpidx⟩ := List.mem_map.mp hir
          have hqex : ∃ q, q ∈ (regionGrow data w h t x y visited).1.pixels ∧
              Px.idx q = i := by
            have hmem := List.mem_flatMap.mp hinew
            obtain ⟨r2, hr2, hir2⟩ := hmem
            rw [List.mem_singleton] at hr2
            subst hr2
            exact List.mem_map.mp hir2
          obtain ⟨q, hq, hqidx⟩ := hqex
          have hpt : visited.getD p.idx false = true := (hacc r hr p hp).2
          have hqf : visited.getD q.idx false = false := (g3 q hq).2.1
          have hpq : p.idx = q.idx := by rw [hpidx, hqidx]
          rw [hpq] at hpt
          rw [hpt] at hqf
          simp at hqf
      · have heq : segmentLoop data w h t ((x, y) :: rest) visited acc =
            segmentLoop data w h t rest (regionGrow data w h t x y visited).2 acc := by
          rw [segmentLoop]
          simp only [Bool.not_eq_true] at hv
          simp only [hv, Bool.false_eq_true, if_false]
          simp only [if_neg hsize]
        rw [heq]
        apply ih _ _ g1
        · intro r hr p hp
          obtain ⟨hb, hvt⟩ := hacc r hr p hp
          exact ⟨hb, g2 p.idx hvt⟩
        · exact hnodup

/-- Helper: when the concatenation of the per-element index lists has no
duplicates, the elements are pairwise disjoint. -/
theorem nodup_flatMap_pairwise {α : Type} (f : α → List ℕ) :
    ∀ l : List α, (l.flatMap f).Nodup →
      l.Pairwise (fun a b => ∀ i ∈ f a, i ∉ f b)
  | [], _ => List.Pairwise.nil
  | a :: rest, hN => by
    rw [List.flatMap_cons, List.nodup_append] at hN
    obtain ⟨hfa, hrest, hdisj⟩ := hN
    refine List.Pairwise.cons ?_ (nodup_flatMap_pairwise f rest hrest)
    intro b hb i hia hib
    exact hdisj hia (List.mem_flatMap.mpr ⟨b, hb, hib⟩)

/-- C4.  For every input image, size and threshold the region list returned by
segmentation consists of pairwise disjoint pixel sets (no pixel index occurs
in two regions), and the sum of all regions' pixel counts is at most
width·height.  The oracles stand for Math.pow(·,0.5), Math.log and
Math.random, which only affect the derived per-region statistics, never the
pixel sets. -/
theorem segmentation_regions_disjoint (powHalfF logF : ℚ → ℚ) (randF : ℕ → ℚ)
    (data : List ℕ) (w h : ℕ) (t : ℚ) :
    (segmentImage powHalfF logF randF data w h t).Pairwise
      (fun r1 r2 => ∀ p ∈ r1.pixels, ∀ q ∈ r2.pixels, p.idx ≠ q.idx) ∧
    ((segmentImage powHalfF logF randF data w h t).map
      (fun r => r.pixels.length)).sum ≤ w * h := by
  have hloop := segmentLoop_invariant data w h t (segmentSeeds w h)
    (List.replicate (w * h) false) [] (by simp)
    (by intro r hr; simp at hr) (by simp)
  set L := (segmentLoop data w h t (segmentSeeds w h)
    (List.replicate (w * h) false) []).1 with hL
  obtain ⟨hB, hN⟩ := hloop
  set fIdx : Region → List ℕ := fun r => r.pixels.map Px.idx with hfIdx
  -- transfer disjointness through sort, take, and the consolidation map
  have hsymm : ∀ {a b : Region},
      (∀ i ∈ fIdx a, i ∉ fIdx b) → ∀ i ∈ fIdx b, i ∉ fIdx a := by
    intro a b hab i hib hia
    exact hab i hia hib
  have hperm := sortBySizeDesc_perm L
  have hPL : L.Pairwise (fun a b => ∀ i ∈ fIdx a, i ∉ fIdx b) :=
    nodup_flatMap_pairwise fIdx L hN
  have hPsorted : (sortBySizeDesc L).Pairwise (fun a b => ∀ i ∈ fIdx a, i ∉ fIdx b) :=
    (hperm.pairwise_iff fun h => hsymm h).mpr hPL
  set n100 := min 100 (sortBySizeDesc L).length with hn100
  have hPtake : ((sortBySizeDesc L).take n100).Pairwise
      (fun a b => ∀ i ∈ fIdx a, i ∉ fIdx b) :=
    hPsorted.sublist (List.take_sublist n100 (sortBySizeDesc L))
  have hseg : segmentImage powHalfF logF randF data w h t =
      ((sortBySizeDesc L).take n100).enum.map (fun ir =>
        ⟨ir.2.pixels, ir.2.avgR, ir.2.avgG, ir.2.avgB, ir.2.brightness,
          ir.2.minX, ir.2.maxX, ir.2.minY, ir.2.maxY, ir.2.centerX, ir.2.centerY,
          ir.2.size, ir.1, rgbToHue ir.2.avgR ir.2.avgG ir.2.avgB,
          rgbToSaturation ir.2.avgR ir.2.avgG ir.2.avgB, 0, 0,
          calculateVelocityMultiplier powHalfF logF (randF ir.1) ir.2,
          logF ((ir.2.size : ℚ) + 1) / 10⟩) := rfl
  constructor
  · rw [hseg, List.pairwise_map]
    have henum : ((sortBySizeDesc L).take n100).enum.Pairwise
        (fun a b => ∀ i ∈ fIdx a.2, i ∉ fIdx b.2) := by
      have hmapsnd := List.enum_map_snd ((sortBySizeDesc L).take n100)
      have := List.pairwise_map (l := ((sortBySizeDesc L).take n100).enum)
        (f := Prod.snd) (R := fun a b : Region => ∀ i ∈ fIdx a, i ∉ fIdx b)
      rw [hmapsnd] at this
      exact this.mp hPtake
    refine henum.imp ?_
    intro a b hab
    intro p hp q hq hpq
    have hpmem : p.idx ∈ fIdx a.2 := List.mem_map.mpr ⟨p, hp, rfl⟩
    have hqmem : q.idx ∈ fIdx b.2 := List.mem_map.mpr ⟨q, hq, rfl⟩
    rw [hpq] at hpmem
    exact hab q.idx hpmem hqmem
  · rw [hseg]
    have hmapeq : (((sortBySizeDesc L).take n100).enum.map (fun ir =>
        ⟨ir.2.pixels, ir.2.avgR, ir.2.avgG, ir.2.avgB, ir.2.brightness,
          ir.2.minX, ir.2.maxX, ir.2.minY, ir.2.maxY, ir.2.centerX, ir.2.centerY,
          ir.2.size, ir.1, rgbToHue ir.2.avgR ir.2.avgG ir.2.avgB,
          rgbToSaturation ir.2.avgR ir.2.avgG ir.2.avgB, 0, 0,
          calculateVelocityMultiplier powHalfF logF (randF ir.1) ir.2,
          logF ((ir.2.size : ℚ) + 1) / 10⟩ : ℕ × Region → RegionOut)).map
          (fun r : RegionOut => r.pixels.length) =
        ((sortBySizeDesc L).take n100).map (fun r => r.pixels.length) := by
      rw [List.map_map]
      have hmapsnd := List.enum_map_snd ((sortBySizeDesc L).take n100)
      calc ((sortBySizeDesc L).take n100).enum.map
            ((fun r : RegionOut => r.pixels.length) ∘ _)
          = (((sortBySizeDesc L).take n100).enum.map Prod.snd).map
              (fun r : Region => r.pixels.length) := by
            rw [List.map_map]
            rfl
        _ = ((sortBySizeDesc L).take n100).map (fun r => r.pixels.length) := by
            rw [hmapsnd]
    rw [hmapeq]
    have htake_le : (((sortBySizeDesc L).take n100).map
        (fun r => r.pixels.length)).sum ≤
        ((sortBySizeDesc L).map (fun r => r.pixels.length)).sum := by
      rw [List.map_take]
      have hsplit : ((sortBySizeDesc L).map (fun r => r.pixels.length)).sum =
          (((sortBySizeDesc L).map (fun r => r.pixels.length)).take n100).sum +
          (((sortBySizeDesc L).map (fun r => r.pixels.length)).drop n100).sum := by
        rw [← List.sum_append, List.take_append_drop]
      omega
    have hsort_sum : ((sortBySizeDesc L).map (fun r => r.pixels.length)).sum =
        (L.map (fun r => r.pixels.length)).sum :=
      (hperm.map (fun r => r.pixels.length)).sum_eq
    have hflat_len : (L.flatMap fIdx).length = (L.map (fun r => r.pixels.length)).sum := by
      rw [List.length_flatMap]
      congr 1
      apply List.map_congr_left
      intro r
      intro hr
      simp [hfIdx]
    have hflat_le : (L.flatMap fIdx).length ≤ w * h := by
      have hcard : (L.flatMap fIdx).length = (L.flatMap fIdx).toFinset.card :=
        (List.toFinset_card_of_nodup hN).symm
      rw [hcard]
      have hsub : (L.flatMap fIdx).toFinset ⊆ Finset.range (w * h) := by
        intro i hi
        rw [List.mem_toFinset] at hi
        obtain ⟨r, hr, hir⟩ := List.mem_flatMap.mp hi
        obtain ⟨p, hp, hpi⟩ := List.mem_map.mp hir
        rw [Finset.mem_range, ← hpi]
        exact hB r hr p hp
      calc (L.flatMap fIdx).toFinset.card ≤ (Finset.range (w * h)).card :=
            Finset.card_le_card hsub
        _ = w * h := Finset.card_range (w * h)
    omega

/-! ### PixelManipulator: particle arrays, position update, toroidal wrap -/

/-- Oracle bundle for the primitives the movement code calls out to:
Math.random as an indexed stream, the transcendental functions, Math.PI, and
a fuel bound for the JS while loops whose iteration count depends on random
draws. -/
structure Oracles where
  rand : ℕ → ℚ
  sqrtF : ℚ → ℚ
  sinF : ℚ → ℚ
  cosF : ℚ → ℚ
  atan2F : ℚ → ℚ → ℚ
  logF : ℚ → ℚ
  piQ : ℚ
  fuel : ℕ

/-- Particle record of PixelManipulator.pixelPositions: mutable float
position plus immutable original integer coordinates. -/
structure PixelPos where
  x : ℚ
  y : ℚ
  originalX : ℕ
  originalY : ℕ
  deriving DecidableEq, Repr

/-- Velocity record of PixelManipulator.pixelVelocities. -/
structure Vel where
  x : ℚ
  y : ℚ
  deriving DecidableEq, Repr

/-- Flow-field cell as consumed by updatePixelPositions: direction components
plus the chromatic marker attached by the chromatic generator (JS checks
this.flowField[0]?.chromatic). -/
structure FlowCell where
  x : ℚ
  y : ℚ
  magnitude : ℚ
  chromatic : Bool
  deriving DecidableEq, Repr

/-- Region data consumed by the per-pixel region force: the region center. -/
structure RegionLite where
  centerX : ℚ
  centerY : ℚ
  deriving DecidableEq, Repr

/-- State of PixelManipulator. -/
structure PixelManipulator where
  originalData : List ℕ
  currentData : List ℕ
  width : ℕ
  height : ℕ
  pixelPositions : List PixelPos
  pixelVelocities : List Vel
  pixelToRegion : List ℤ
  regions : List RegionLite
  flowField : Option (List FlowCell)
  time : ℚ
  deriving Repr

/-- PixelManipulator.initializePixelPositions: row-major particle creation,
each particle at its original integer coordinates with zero velocity. -/
def initializePixelPositions (w h : ℕ) : List PixelPos × List Vel :=
  ((List.range h).flatMap (fun y => (List.range w).map (fun (x : ℕ) => PixelPos.mk x y x y)),
   (List.range h).flatMap (fun y => (List.range w).map (fun _ => ⟨0, 0⟩)))

/-- PixelManipulator.loadImageData: copy the RGBA buffer, set dimensions, and
re-initialise particle positions and velocities. -/
def loadImageData (pm : PixelManipulator) (data : List ℕ) (w h : ℕ) :
    PixelManipulator :=
  { pm with
    originalData := data
    currentData := data
    width := w
    height := h
    pixelPositions := (initializePixelPositions w h).1
    pixelVelocities := (initializePixelPositions w h).2 }

/-- Helper: a row-major double loop over y < h, x < w enumerates the same
list as a single loop over i < w·h with x = i % w and y = i / w. -/
theorem flatMap_range_eq_range_mul {α : Type} (w : ℕ) (f : ℕ → ℕ → α) :
    ∀ h : ℕ, (List.range h).flatMap (fun y => (List.range w).map (fun x => f y x)) =
      (List.range (w * h)).map (fun i => f (i / w) (i % w)) := by
  intro h
  induction h with
  | zero => simp
  | succ h ih =>
    rcases Nat.eq_zero_or_pos w with hw0 | hwpos
    · subst hw0
      simp
    · rw [List.range_succ, List.flatMap_append, ih]
      rw [show w * (h + 1) = w * h + w by ring, List.range_add, List.map_append,
        List.map_map]
      congr 1
      · rw [List.flatMap_singleton]
        apply List.map_congr_left
        intro x hx
        rw [List.mem_range] at hx
        have hdiv : (w * h + x) / w = h := by
          rw [Nat.mul_comm w h, Nat.add_comm, Nat.add_mul_div_right x h hwpos,
            Nat.div_eq_of_lt hx, Nat.zero_add]
        have hmod : (w * h + x) % w = x := by
          rw [Nat.mul_comm w h, Nat.add_comm, Nat.add_mul_mod_self_right]
          exact Nat.mod_eq_of_lt hx
        simp [Function.comp, hdiv, hmod]

/-- C10.  After loading a width×height image the simulation holds exactly
width·height particles; particle i sits at its immutable original integer
coordinates (i mod width, i / width) with zero velocity. -/
theorem loadImageData_particles (pm : PixelManipulator) (data : List ℕ)
    (w h : ℕ) :
    (loadImageData pm data w h).pixelPositions.length = w * h ∧
    (loadImageData pm data w h).pixelVelocities.length = w * h ∧
    ∀ i, i < w * h →
      (loadImageData pm data w h).pixelPositions.getD i ⟨0, 0, 0, 0⟩ =
        ⟨((i % w : ℕ) : ℚ), ((i / w : ℕ) : ℚ), i % w, i / w⟩ ∧
      (loadImageData pm data w h).pixelVelocities.getD i ⟨1, 1⟩ = ⟨0, 0⟩ := by
  have hpos : (loadImageData pm data w h).pixelPositions =
      (List.range (w * h)).map
        (fun i => (⟨((i % w : ℕ) : ℚ), ((i / w : ℕ) : ℚ), i % w, i / w⟩ : PixelPos)) := by
    show (initializePixelPositions w h).1 = _
    unfold initializePixelPositions
    exact flatMap_range_eq_range_mul w (fun (y x : ℕ) => PixelPos.mk x y x y) h
  have hvel : (loadImageData pm data w h).pixelVelocities =
      (List.range (w * h)).map (fun _ => (⟨0, 0⟩ : Vel)) := by
    show (initializePixelPositions w h).2 = _
    unfold initializePixelPositions
    exact flatMap_range_eq_range_mul w (fun _ _ => (⟨0, 0⟩ : Vel)) h
  refine ⟨by rw [hpos]; simp, by rw [hvel]; simp, ?_⟩
  intro i hi
  constructor
  · rw [hpos, List.getD_eq_getElem?_getD, List.getElem?_map, List.getElem?_range hi]
    rfl
  · rw [hvel, List.getD_eq_getElem?_getD, List.getElem?_map, List.getElem?_range hi]
    rfl

/-- C10 witness: loading a 3×2 image on an empty manipulator yields 6
particles; particle 4 sits at (1, 1) with zero velocity. -/
theorem loadImageData_particles_witness :
    (loadImageData ⟨[], [], 0, 0, [], [], [], [], none, 0⟩ [] 3 2).pixelPositions.length
        = 3 * 2 ∧
    (loadImageData ⟨[], [], 0, 0, [], [], [], [], none, 0⟩ [] 3 2).pixelPositions.getD 4
        ⟨0, 0, 0, 0⟩ = ⟨((4 % 3 : ℕ) : ℚ), ((4 / 3 : ℕ) : ℚ), 4 % 3, 4 / 3⟩ :=
  ⟨(loadImageData_particles ⟨[], [], 0, 0, [], [], [], [], none, 0⟩ [] 3 2).1,
   ((loadImageData_particles ⟨[], [], 0, 0, [], [], [], [], none, 0⟩ [] 3 2).2.2 4
     (by decide)).1⟩

/-- PixelManipulator.sampleFlowField: the flow field is at quarter
resolution; pixel coordinates are mapped down, clamped, and the cell is
looked up with an explicit in-range check (out of range yields {x:0,y:0}). -/
def pmSampleFlowField (field : List FlowCell) (w h : ℕ) (x y : ℚ) : FlowCell :=
  let fieldWidth : ℤ := (w / 4 : ℕ)
  let fieldHeight : ℤ := (h / 4 : ℕ)
  let fx : ℤ := ⌊(x / (w : ℚ)) * ((w / 4 : ℕ) : ℚ)⌋
  let fy : ℤ := ⌊(y / (h : ℚ)) * ((h / 4 : ℕ) : ℚ)⌋
  let clampedFx := max 0 (min (fieldWidth - 1) fx)
  let clampedFy := max 0 (min (fieldHeight - 1) fy)
  let index := clampedFy * fieldWidth + clampedFx
  if 0 ≤ index ∧ index < (field.length : ℤ) then
    field.getD index.toNat ⟨0, 0, 0, false⟩
  else ⟨0, 0, 0, false⟩

/-- PixelManipulator.getPixelBrightness: luminance of the original pixel,
0.5 when the index is out of the buffer. -/
def getPixelBrightness (data : List ℕ) (originalIndex : ℕ) : ℚ :=
  if originalIndex * 4 < data.length then
    ((data.getD (originalIndex * 4) 0 : ℚ) * 0.299 +
     (data.getD (originalIndex * 4 + 1) 0 : ℚ) * 0.587 +
     (data.getD (originalIndex * 4 + 2) 0 : ℚ) * 0.114) / 255
  else 1 / 2

/-- PixelManipulator.calculatePixelBrightnessForce: bright pixels rise, dark
pixels sink, with a sinusoidal horizontal drift. -/
def calculatePixelBrightnessForce (o : Oracles) (brightness sensitivity : ℚ) :
    ℚ × ℚ :=
  let verticalForce := (brightness - 1 / 2) * sensitivity * 0.2
  let horizontalForce := o.sinF (brightness * o.piQ * 2) * 0.1
  (horizontalForce, -verticalForce)

/-- PixelManipulator.calculatePixelRegionForce: pull toward the region center
with a small time-varying oscillation; zero at the exact center. -/
def calculatePixelRegionForce (o : Oracles) (time : ℚ) (pos : PixelPos)
    (reg : RegionLite) : ℚ × ℚ :=
  let dx := reg.centerX - pos.x
  let dy := reg.centerY - pos.y
  let distance := o.sqrtF (dx * dx + dy * dy)
  if distance = 0 then (0, 0)
  else
    ((dx / distance) * 0.0005 + o.sinF (time * 0.001 + pos.x * 0.01) * 0.01,
     (dy / distance) * 0.0005 + o.cosF (time * 0.001 + pos.y * 0.01) * 0.01)

/-- Toroidal wrap of updatePixelPositions, exactly in the order the source
checks: the lower bound first (snapping to width−1), then the upper bound
(snapping to 0). -/
def wrapCoord (bound : ℕ) (q : ℚ) : ℚ :=
  let q1 := if q < 0 then (bound : ℚ) - 1 else q
  if (bound : ℚ) ≤ q1 then 0 else q1

theorem wrapCoord_mem (bound : ℕ) (hb : 1 ≤ bound) (q : ℚ) :
    0 ≤ wrapCoord bound q ∧ wrapCoord bound q < (bound : ℚ) := by
  unfold wrapCoord
  have hb1 : (1 : ℚ) ≤ (bound : ℚ) := by exact_mod_cast hb
  by_cases hneg : q < 0
  · rw [if_pos hneg]
    have hlt : ¬ ((bound : ℚ) ≤ (bound : ℚ) - 1) := by linarith
    rw [if_neg hlt]
    constructor <;> linarith
  · rw [if_neg hneg]
    push_neg at hneg
    by_cases hbig : (bound : ℚ) ≤ q
    · rw [if_pos hbig]
      constructor <;> linarith
    · rw [if_neg hbig]
      push_neg at hbig
      exact ⟨hneg, hbig⟩

/-- Body of the updatePixelPositions loop for one particle: sample the flow
field, combine brightness, region and noise forces with the flow weight
(0.8 for the chromatic generator, 0.1 otherwise), damp and cap the velocity,
integrate, and wrap at the canvas bounds. -/
def updateOnePixel (pm : PixelManipulator) (o : Oracles)
    (time2 deltaTime movementSpeed brightnessSensitivity : ℚ)
    (i : ℕ) (pos : PixelPos) (vel : Vel) : PixelPos × Vel :=
  let regionId := pm.pixelToRegion.getD i (-1)
  let flowVector : FlowCell :=
    match pm.flowField with
    | some field => pmSampleFlowField field pm.width pm.height pos.x pos.y
    | none => ⟨0, 0, 0, false⟩
  let originalIndex := pos.originalY * pm.width + pos.originalX
  let pixelBrightness := getPixelBrightness pm.originalData originalIndex
  let brightnessForce :=
    calculatePixelBrightnessForce o pixelBrightness brightnessSensitivity
  let regionForce :=
    if h : 0 ≤ regionId then
      match pm.regions.getD regionId.toNat ⟨0, 0⟩ with
      | reg => calculatePixelRegionForce o time2 pos reg
    else (0, 0)
  let noiseForce := ((o.rand (2 * i) - 1 / 2) * 0.05, (o.rand (2 * i + 1) - 1 / 2) * 0.05)
  let flowWeight : ℚ :=
    match pm.flowField with
    | some (c :: _) => if c.chromatic then 0.8 else 0.1
    | _ => 0.1
  let totalForceX := flowVector.x * flowWeight + brightnessForce.1 * 0.25 +
    regionForce.1 * 0.1 + noiseForce.1 * 0.05
  let totalForceY := flowVector.y * flowWeight + brightnessForce.2 * 0.25 +
    regionForce.2 * 0.1 + noiseForce.2 * 0.05
  let vx1 := vel.x * 0.95 + totalForceX * deltaTime * movementSpeed
  let vy1 := vel.y * 0.95 + totalForceY * deltaTime * movementSpeed
  let maxVelocity := 3 * movementSpeed
  let currentSpeed := o.sqrtF (vx1 * vx1 + vy1 * vy1)
  let vx2 := if maxVelocity < currentSpeed then (vx1 / currentSpeed) * maxVelocity else vx1
  let vy2 := if maxVelocity < currentSpeed then (vy1 / currentSpeed) * maxVelocity else vy1
  let newX := pos.x + vx2
  let newY := pos.y + vy2
  (⟨wrapCoord pm.width newX, wrapCoord pm.height newY, pos.originalX, pos.originalY⟩,
   ⟨vx2, vy2⟩)

/-- PixelManipulator.updatePixelPositions: advance time, then update every
particle in place (the JS loop reads and writes only pixel i in iteration i,
so it is a map over the zipped position/velocity arrays). -/
def updatePixelPositions (pm : PixelManipulator) (o : Oracles)
    (deltaTime movementSpeed brightnessSensitivity : ℚ) : PixelManipulator :=
  let time2 := pm.time + deltaTime
  let upd := (pm.pixelPositions.zip pm.pixelVelocities).enum.map (fun ie =>
    updateOnePixel pm o time2 deltaTime movementSpeed brightnessSensitivity
      ie.1 ie.2.1 ie.2.2)
  { pm with
    time := time2
    pixelPositions := upd.map Prod.fst
    pixelVelocities := upd.map Prod.snd }

/-- C6.  After the position-update step of a tick, including the wrap at the
canvas bounds, every particle position lies in [0,width) × [0,height),
whatever the pre-wrap velocity was (the oracles for sqrt/sin/cos/random are
arbitrary, so the capped velocity is unconstrained). -/
theorem updatePixelPositions_in_bounds (pm : PixelManipulator) (o : Oracles)
    (deltaTime movementSpeed brightnessSensitivity : ℚ)
    (hw : 1 ≤ pm.width) (hh : 1 ≤ pm.height) :
    ∀ p ∈ (updatePixelPositions pm o deltaTime movementSpeed
        brightnessSensitivity).pixelPositions,
      0 ≤ p.x ∧ p.x < (pm.width : ℚ) ∧ 0 ≤ p.y ∧ p.y < (pm.height : ℚ) := by
  intro p hp
  have hp2 : p ∈ ((pm.pixelPositions.zip pm.pixelVelocities).enum.map (fun ie =>
      updateOnePixel pm o (pm.time + deltaTime) deltaTime movementSpeed
        brightnessSensitivity ie.1 ie.2.1 ie.2.2)).map Prod.fst := hp
  rw [List.map_map] at hp2
  obtain ⟨ie, _, hpe⟩ := List.mem_map.mp hp2
  have hx : p.x = wrapCoord pm.width (ie.2.1.x +
      (updateOnePixel pm o (pm.time + deltaTime) deltaTime movementSpeed
        brightnessSensitivity ie.1 ie.2.1 ie.2.2).2.x) := by
    rw [← hpe]
    rfl
  have hy : p.y = wrapCoord pm.height (ie.2.1.y +
      (updateOnePixel pm o (pm.time + deltaTime) deltaTime movementSpeed
        brightnessSensitivity ie.1 ie.2.1 ie.2.2).2.y) := by
    rw [← hpe]
    rfl
  rw [hx, hy]
  obtain ⟨hx1, hx2⟩ := wrapCoord_mem pm.width hw _
  obtain ⟨hy1, hy2⟩ := wrapCoord_mem pm.height hh _
  exact ⟨hx1, hx2, hy1, hy2⟩

/-- C6 witness: the single particle at (0,0) with a huge negative velocity
on a 4×4 canvas ends the update inside [0,4) × [0,4). -/
theorem updatePixelPositions_in_bounds_witness :
    0 ≤ ((updatePixelPositions
        ⟨[], [], 4, 4, [⟨0, 0, 0, 0⟩], [⟨-1000000, -1000000⟩], [], [], none, 0⟩
        ⟨fun _ => 0, fun q => q, fun _ => 0, fun _ => 0, fun _ _ => 0, fun _ => 0, 3, 0⟩
        1 1 1).pixelPositions.getD 0 ⟨5, 5, 0, 0⟩).x ∧
    ((updatePixelPositions
        ⟨[], [], 4, 4, [⟨0, 0, 0, 0⟩], [⟨-1000000, -1000000⟩], [], [], none, 0⟩
        ⟨fun _ => 0, fun q => q, fun _ => 0, fun _ => 0, fun _ _ => 0, fun _ => 0, 3, 0⟩
        1 1 1).pixelPositions.getD 0 ⟨5, 5, 0, 0⟩).x < ((4 : ℕ) : ℚ) ∧
    0 ≤ ((updatePixelPositions
        ⟨[], [], 4, 4, [⟨0, 0, 0, 0⟩], [⟨-1000000, -1000000⟩], [], [], none, 0⟩
        ⟨fun _ => 0, fun q => q, fun _ => 0, fun _ => 0, fun _ _ => 0, fun _ => 0, 3, 0⟩
        1 1 1).pixelPositions.getD 0 ⟨5, 5, 0, 0⟩).y ∧
    ((updatePixelPositions
        ⟨[], [], 4, 4, [⟨0, 0, 0, 0⟩], [⟨-1000000, -1000000⟩], [], [], none, 0⟩
        ⟨fun _ => 0, fun q => q, fun _ => 0, fun _ => 0, fun _ _ => 0, fun _ => 0, 3, 0⟩
        1 1 1).pixelPositions.getD 0 ⟨5, 5, 0, 0⟩).y < ((4 : ℕ) : ℚ) := by
  have hmem : ((updatePixelPositions
      ⟨[], [], 4, 4, [⟨0, 0, 0, 0⟩], [⟨-1000000, -1000000⟩], [], [], none, 0⟩
      ⟨fun _ => 0, fun q => q, fun _ => 0, fun _ => 0, fun _ _ => 0, fun _ => 0, 3, 0⟩
      1 1 1).pixelPositions.getD 0 ⟨5, 5, 0, 0⟩) ∈ (updatePixelPositions
      ⟨[], [], 4, 4, [⟨0, 0, 0, 0⟩], [⟨-1000000, -1000000⟩], [], [], none, 0⟩
      ⟨fun _ => 0, fun q => q, fun _ => 0, fun _ => 0, fun _ _ => 0, fun _ => 0, 3, 0⟩
      1 1 1).pixelPositions := by
    have hlen : (updatePixelPositions
        ⟨[], [], 4, 4, [⟨0, 0, 0, 0⟩], [⟨-1000000, -1000000⟩], [], [], none, 0⟩
        ⟨fun _ => 0, fun q => q, fun _ => 0, fun _ => 0, fun _ _ => 0, fun _ => 0, 3, 0⟩
        1 1 1).pixelPositions.length = 1 := rfl
    rw [List.getD_eq_getElem?_getD, List.getElem?_eq_getElem (by rw [hlen]; omega)]
    exact List.getElem_mem _
  exact updatePixelPositions_in_bounds
    ⟨[], [], 4, 4, [⟨0, 0, 0, 0⟩], [⟨-1000000, -1000000⟩], [], [], none, 0⟩
    ⟨fun _ => 0, fun q => q, fun _ => 0, fun _ => 0, fun _ _ => 0, fun _ => 0, 3, 0⟩
    1 1 1 (by decide) (by decide) _ hmem

/-! ### Scatter pulse (MovementEngine, src/unnamed/part_001) -/

/-- Runtime state this.scatterPulse: the 5-second window, the start of the
current window (0 meaning "not yet initialised", which is what the JS falsy
check tests), the scheduled pulse time (null = none) and the remaining active
frames. -/
structure ScatterPulse where
  windowMs : ℚ
  windowStartMs : ℚ
  scheduledAtMs : Option ℚ
  activeFramesRemaining : ℕ
  deriving DecidableEq, Repr

/-- Initial scatter-pulse state from the MovementEngine constructor. -/
def initScatterPulse : ScatterPulse := ⟨5000, 0, none, 0⟩

/-- Parameters consumed by the scatter-pulse logic. -/
structure PulseParams where
  scatterPulseEnabled : Bool
  scatterPulseProbability : ℚ
  scatterStrength : ℚ
  deriving DecidableEq, Repr

/-- MovementEngine.scheduleScatterPulseForWindow: at most one pulse per
window; probability is clamped to [0,100] and scaled to [0,1]; at p ≤ 0 the
schedule is cleared.  Random draws are consumed from the stream starting at
counter k; returns the state together with the advanced counter. -/
def scheduleScatterPulseForWindow (params : PulseParams) (o : Oracles) (k : ℕ)
    (startTimeMs : ℚ) (sp : ScatterPulse) : ScatterPulse × ℕ :=
  if params.scatterPulseEnabled = false then
    ({ sp with scheduledAtMs := none }, k)
  else
    let p := max 0 (min 100 params.scatterPulseProbability) / 100
    if p ≤ 0 then ({ sp with scheduledAtMs := none }, k)
    else
      let willPulse := o.rand k < p ∨ p = 1
      if willPulse then
        ({ sp with scheduledAtMs := some (startTimeMs + o.rand (k + 1) * sp.windowMs) },
         k + 2)
      else ({ sp with scheduledAtMs := none }, k + 1)

/-- While loop of updateScatterPulse advancing the rolling window: as long as
a full window has elapsed, move the window start forward, clear the schedule
and re-schedule for the new window.  Fuel-bounded embedding of the JS while
loop (which terminates because windowMs = 5000 > 0). -/
def advancePulseWindows (params : PulseParams) (o : Oracles) :
    ℕ → ℕ → ℚ → ScatterPulse → ScatterPulse × ℕ
  | 0, k, _, sp => (sp, k)
  | fuel + 1, k, now, sp =>
    if sp.windowMs ≤ now - sp.windowStartMs then
      let sp1 := { sp with windowStartMs := sp.windowStartMs + sp.windowMs,
                           scheduledAtMs := none }
      let sched := scheduleScatterPulseForWindow params o k sp1.windowStartMs sp1
      advancePulseWindows params o fuel sched.2 now sched.1
    else (sp, k)

/-- Window initialisation at the top of updateScatterPulse: when the window
start is unset (0, the JS falsy check) set it to the current time and schedule
for it. -/
def pulseInitStep (params : PulseParams) (o : Oracles) (k : ℕ) (now : ℚ)
    (sp : ScatterPulse) : ScatterPulse × ℕ :=
  if sp.windowStartMs = 0 then
    scheduleScatterPulseForWindow params o k now { sp with windowStartMs := now }
  else (sp, k)

/-- Pulse activation at the bottom of updateScatterPulse: when a pulse is
scheduled, its time has arrived and no pulse is active, activate for 2 more
frames and clear the schedule. -/
def activatePulse (now : ℚ) (spk : ScatterPulse × ℕ) : ScatterPulse × ℕ :=
  match h : spk.1.scheduledAtMs with
  | some schedMs =>
    if schedMs ≤ now ∧ spk.1.activeFramesRemaining = 0 then
      ({ spk.1 with activeFramesRemaining := 2, scheduledAtMs := none }, spk.2)
    else spk
  | none => spk

/-- MovementEngine.updateScatterPulse: initialise the window on first use,
advance the rolling window, then activate the pulse (2 frames) when the
scheduled time has arrived and no pulse is active. -/
def updateScatterPulse (params : PulseParams) (o : Oracles) (fuel k : ℕ)
    (now : ℚ) (sp : ScatterPulse) : ScatterPulse × ℕ :=
  if params.scatterPulseEnabled = false then (sp, k)
  else
    let initd := pulseInitStep params o k now sp
    activatePulse now (advancePulseWindows params o fuel initd.2 now initd.1)

/-- End-of-frame decrement of the active pulse counter (animate loop). -/
def decrementPulseFrames (sp : ScatterPulse) : ScatterPulse :=
  if 0 < sp.activeFramesRemaining then
    { sp with activeFramesRemaining := sp.activeFramesRemaining - 1 }
  else sp

/-- MovementEngine.isScatterPulseActive. -/
def isScatterPulseActive (sp : ScatterPulse) : Bool :=
  decide (0 < sp.activeFramesRemaining)

/-- MovementEngine.getEffectiveScatterStrength: 90 while a pulse is active,
0 when the pulse system is enabled but idle, the baseline strength
otherwise. -/
def getEffectiveScatterStrength (params : PulseParams) (sp : ScatterPulse) : ℚ :=
  if isScatterPulseActive sp then 90
  else if params.scatterPulseEnabled then 0
  else params.scatterStrength

/-- An observable operation on the scatter-pulse state: a tick update at some
clock time with some window fuel, a direct re-schedule (parameter-change
path), or the end-of-frame decrement. -/
inductive PulseOp where
  | update (now : ℚ) (fuel : ℕ)
  | schedule (start : ℚ)
  | decrement
  deriving Repr

/-- Run a sequence of scatter-pulse operations, threading the random
counter. -/
def runPulseOps (params : PulseParams) (o : Oracles) :
    List PulseOp → ℕ → ScatterPulse → ScatterPulse × ℕ
  | [], k, sp => (sp, k)
  | PulseOp.update now fuel :: rest, k, sp =>
    let r := updateScatterPulse params o fuel k now sp
    runPulseOps params o rest r.2 r.1
  | PulseOp.schedule start :: rest, k, sp =>
    let r := scheduleScatterPulseForWindow params o k start sp
    runPulseOps params o rest r.2 r.1
  | PulseOp.decrement :: rest, k, sp =>
    runPulseOps params o rest k (decrementPulseFrames sp)

theorem schedule_prob_zero (params : PulseParams) (o : Oracles) (k : ℕ)
    (start : ℚ) (sp : ScatterPulse)
    (hp : params.scatterPulseProbability = 0) :
    (scheduleScatterPulseForWindow params o k start sp).1.scheduledAtMs = none ∧
    (scheduleScatterPulseForWindow params o k start sp).1.activeFramesRemaining =
      sp.activeFramesRemaining := by
  unfold scheduleScatterPulseForWindow
  by_cases hen : params.scatterPulseEnabled = false
  · rw [if_pos hen]
    exact ⟨rfl, rfl⟩
  · rw [if_neg hen]
    have hple : max 0 (min 100 params.scatterPulseProbability) / 100 ≤ 0 := by
      rw [hp]
      norm_num
    rw [if_pos hple]
    exact ⟨rfl, rfl⟩

theorem advance_prob_zero (params : PulseParams) (o : Oracles)
    (hp : params.scatterPulseProbability = 0) :
    ∀ (fuel k : ℕ) (now : ℚ) (sp : ScatterPulse),
      sp.scheduledAtMs = none → sp.activeFramesRemaining = 0 →
      (advancePulseWindows params o fuel k now sp).1.scheduledAtMs = none ∧
      (advancePulseWindows params o fuel k now sp).1.activeFramesRemaining = 0 := by
  intro fuel
  induction fuel with
  | zero =>
    intro k now sp hs ha
    exact ⟨hs, ha⟩
  | succ fuel ih =>
    intro k now sp hs ha
    rw [advancePulseWindows]
    by_cases hW : sp.windowMs ≤ now - sp.windowStartMs
    · rw [if_pos hW]
      obtain ⟨h1, h2⟩ := schedule_prob_zero params o k
        (sp.windowStartMs + sp.windowMs)
        { sp with windowStartMs := sp.windowStartMs + sp.windowMs,
                  scheduledAtMs := none } hp
      exact ih _ now _ h1 (by rw [h2]; exact ha)
    · rw [if_neg hW]
      exact ⟨hs, ha⟩

theorem activatePulse_none (now : ℚ) (spk : ScatterPulse × ℕ)
    (h : spk.1.scheduledAtMs = none) : activatePulse now spk = spk := by
  unfold activatePulse
  split
  · next schedMs heq =>
    rw [heq] at h
    exact absurd h (by simp)
  · rfl

theorem update_prob_zero (params : PulseParams) (o : Oracles) (fuel k : ℕ)
    (now : ℚ) (sp : ScatterPulse)
    (hp : params.scatterPulseProbability = 0)
    (hs : sp.scheduledAtMs = none) (ha : sp.activeFramesRemaining = 0) :
    (updateScatterPulse params o fuel k now sp).1.scheduledAtMs = none ∧
    (updateScatterPulse params o fuel k now sp).1.activeFramesRemaining = 0 := by
  unfold updateScatterPulse
  by_cases hen : params.scatterPulseEnabled = false
  · rw [if_pos hen]
    exact ⟨hs, ha⟩
  · rw [if_neg hen]
    have hinit1 : (pulseInitStep params o k now sp).1.scheduledAtMs = none := by
      unfold pulseInitStep
      by_cases h0 : sp.windowStartMs = 0
      · rw [if_pos h0]
        exact (schedule_prob_zero params o k now { sp with windowStartMs := now } hp).1
      · rw [if_neg h0]
        exact hs
    have hinit2 : (pulseInitStep params o k now sp).1.activeFramesRemaining = 0 := by
      unfold pulseInitStep
      by_cases h0 : sp.windowStartMs = 0
      · rw [if_pos h0]
        rw [(schedule_prob_zero params o k now { sp with windowStartMs := now } hp).2]
        exact ha
      · rw [if_neg h0]
        exact ha
    obtain ⟨hA1, hA2⟩ := advance_prob_zero params o hp fuel
      (pulseInitStep params o k now sp).2 now (pulseInitStep params o k now sp).1
      hinit1 hinit2
    rw [activatePulse_none now _ hA1]
    exact ⟨hA1, hA2⟩

/-- C7.  With the pulse system enabled and scatter-pulse probability 0,
starting from a state with no scheduled pulse and no active pulse, any
sequence of window updates, re-schedules and frame decrements keeps the
scheduled time null and the active counter zero, and the effective scatter
strength stays 0. -/
theorem scatterPulse_prob_zero_never_fires (params : PulseParams) (o : Oracles)
    (hen : params.scatterPulseEnabled = true)
    (hp : params.scatterPulseProbability = 0) :
    ∀ (ops : List PulseOp) (k : ℕ) (sp : ScatterPulse),
      sp.scheduledAtMs = none → sp.activeFramesRemaining = 0 →
      (runPulseOps params o ops k sp).1.scheduledAtMs = none ∧
      (runPulseOps params o ops k sp).1.activeFramesRemaining = 0 ∧
      getEffectiveScatterStrength params (runPulseOps params o ops k sp).1 = 0 := by
  intro ops
  induction ops with
  | nil =>
    intro k sp hs ha
    simp only [runPulseOps]
    refine ⟨hs, ha, ?_⟩
    unfold getEffectiveScatterStrength isScatterPulseActive
    rw [ha]
    simp [hen]
  | cons op rest ih =>
    intro k sp hs ha
    cases op with
    | update now fuel =>
      simp only [runPulseOps]
      obtain ⟨h1, h2⟩ := update_prob_zero params o fuel k now sp hp hs ha
      exact ih _ _ h1 h2
    | schedule start =>
      simp only [runPulseOps]
      obtain ⟨h1, h2⟩ := schedule_prob_zero params o k start sp hp
      exact ih _ _ h1 (by rw [h2]; exact ha)
    | decrement =>
      simp only [runPulseOps]
      have h1 : (decrementPulseFrames sp).scheduledAtMs = none := by
        unfold decrementPulseFrames
        by_cases h : 0 < sp.activeFramesRemaining
        · rw [if_pos h]; exact hs
        · rw [if_neg h]; exact hs
      have h2 : (decrementPulseFrames sp).activeFramesRemaining = 0 := by
        unfold decrementPulseFrames
        by_cases h : 0 < sp.activeFramesRemaining
        · omega
        · rw [if_neg h]; exact ha
      exact ih _ _ h1 h2

/-- C7 witness: from the constructor state, three simulated window updates,
a re-schedule and a decrement at probability 0 leave nothing scheduled, no
active pulse, and effective strength 0. -/
theorem scatterPulse_prob_zero_never_fires_witness :
    (runPulseOps ⟨true, 0, 50⟩
        ⟨fun _ => 1 / 2, fun q => q, fun _ => 0, fun _ => 0, fun _ _ => 0, fun _ => 0, 3, 9⟩
        [PulseOp.update 0 5, PulseOp.update 6000 5, PulseOp.schedule 6000,
         PulseOp.decrement, PulseOp.update 20000 5] 0 initScatterPulse).1.scheduledAtMs
        = none ∧
    (runPulseOps ⟨true, 0, 50⟩
        ⟨fun _ => 1 / 2, fun q => q, fun _ => 0, fun _ => 0, fun _ _ => 0, fun _ => 0, 3, 9⟩
        [PulseOp.update 0 5, PulseOp.update 6000 5, PulseOp.schedule 6000,
         PulseOp.decrement, PulseOp.update 20000 5] 0 initScatterPulse).1.activeFramesRemaining
        = 0 ∧
    getEffectiveScatterStrength ⟨true, 0, 50⟩
      (runPulseOps ⟨true, 0, 50⟩
        ⟨fun _ => 1 / 2, fun q => q, fun _ => 0, fun _ => 0, fun _ _ => 0, fun _ => 0, 3, 9⟩
        [PulseOp.update 0 5, PulseOp.update 6000 5, PulseOp.schedule 6000,
         PulseOp.decrement, PulseOp.update 20000 5] 0 initScatterPulse).1 = 0 :=
  scatterPulse_prob_zero_never_fires ⟨true, 0, 50⟩
    ⟨fun _ => 1 / 2, fun q => q, fun _ => 0, fun _ => 0, fun _ _ => 0, fun _ => 0, 3, 9⟩
    rfl rfl
    [PulseOp.update 0 5, PulseOp.update 6000 5, PulseOp.schedule 6000,
     PulseOp.decrement, PulseOp.update 20000 5] 0 initScatterPulse rfl rfl

/-! ### MovementEngine per-tick pipeline (src/unnamed/part_002) -/

/-- Engine parameters consumed by the per-tick pipeline. -/
structure EngineParams where
  movementSpeed : ℚ
  brightnessSensitivity : ℚ
  gravityStrength : ℚ
  scatterStrength : ℚ
  randomMirrors : ℚ
  scanLineInterference : ℚ
  kaleidoscopeFractal : ℚ
  trails : ℚ
  deriving DecidableEq, Repr

/-- Gravity well record. -/
structure Well where
  x : ℚ
  y : ℚ
  strength : ℚ
  deriving DecidableEq, Repr

/-- Mirror chord record with precomputed normal and line equation
coefficients (ax + by + c = 0), as stored by generateMirrorLines. -/
structure MirrorLine where
  x1 : ℚ
  y1 : ℚ
  x2 : ℚ
  y2 : ℚ
  normalX : ℚ
  normalY : ℚ
  a : ℚ
  b : ℚ
  c : ℚ
  deriving DecidableEq, Repr

/-- MovementEngine state relevant to the tick pipeline: the owned
PixelManipulator plus the per-module persistent state.  Rendering-only
members (canvas contexts, export frames) are omitted: they never write
particle state. -/
structure EngineState where
  pm : PixelManipulator
  gravityWells : List Well
  mirrorLines : List MirrorLine
  scanLinePhase : ℚ
  kaleidoscopeRotation : ℚ
  kaleidoscopeSegments : ℕ
  frameCount : ℕ
  trailPixels : List ℕ
  trailHistory : List (ℕ × List (ℚ × ℚ))
  deriving Repr

/-- Gravity radius constant of part_002 (this.gravityRadius = 80). -/
def gravityRadius : ℚ := 80

/-- Indices visited by a JS loop for (i = 0; i < len; i += step), step ≥ 1. -/
def sampleIndices (len step : ℕ) : List ℕ :=
  (List.range len).filter (fun i => i % step = 0)

/-- Write back an updated (positions, velocities) pair into the engine
state. -/
def setPV (s : EngineState) (pv : List PixelPos × List Vel) : EngineState :=
  { s with pm := { s.pm with pixelPositions := pv.1, pixelVelocities := pv.2 } }

/-- Update the position/velocity lists at the given indices with a per-pixel
transformer (embedding of in-place writes at sampled indices). -/
def updateAtIndices (idxs : List ℕ) (f : ℕ → PixelPos × Vel → PixelPos × Vel)
    (pv : List PixelPos × List Vel) : List PixelPos × List Vel :=
  idxs.foldl (fun acc i =>
    let r := f i (acc.1.getD i ⟨0, 0, 0, 0⟩, acc.2.getD i ⟨0, 0⟩)
    (acc.1.set i r.1, acc.2.set i r.2)) pv

/-- MovementEngine.generateGravityWells: cleared when no image is loaded or
gravity strength is not positive, otherwise min(10, floor(strength·2)) wells
at random positions with randomly varied strength. -/
def generateGravityWells (params : EngineParams) (o : Oracles)
    (s : EngineState) : EngineState :=
  if s.pm.width = 0 ∨ s.pm.height = 0 ∨ params.gravityStrength ≤ 0 then
    { s with gravityWells := [] }
  else
    let wellCount := min 10 (⌊params.gravityStrength * 2⌋.toNat)
    { s with gravityWells := (List.range wellCount).map (fun i =>
        ⟨o.rand (3 * i) * s.pm.width, o.rand (3 * i + 1) * s.pm.height,
         params.gravityStrength * (1 / 2 + o.rand (3 * i + 2) * (1 / 2))⟩) }

/-- Inner well loop of applyGravityForces for one sampled pixel: each well
within the gravity radius (and farther than 1) adds an inverse-distance pull
to the velocity (scaled by sampleRate·3) and nudges the position directly
toward the well. -/
def gravityOnePixel (o : Oracles) (wells : List Well) (sampleRate : ℕ)
    (pv : PixelPos × Vel) : PixelPos × Vel :=
  wells.foldl (fun pv well =>
    let dx := well.x - pv.1.x
    let dy := well.y - pv.1.y
    let distanceSquared := dx * dx + dy * dy
    let distance := o.sqrtF distanceSquared
    if distance < gravityRadius ∧ 1 < distance then
      let force := (well.strength * 200) / max distance 10
      let forceX := (dx / distance) * force
      let forceY := (dy / distance) * force
      let directMoveStrength := well.strength * 0.1
      ({ pv.1 with x := pv.1.x + (dx / distance) * directMoveStrength,
                   y := pv.1.y + (dy / distance) * directMoveStrength },
       ⟨pv.2.x + forceX * sampleRate * 3, pv.2.y + forceY * sampleRate * 3⟩)
    else pv) pv

/-- MovementEngine.applyGravityForces: no-op when gravity strength is not
positive or no wells exist; otherwise apply the well forces to every
sampleRate-th pixel (at most 200000 processed). -/
def applyGravityForces (params : EngineParams) (o : Oracles)
    (s : EngineState) : EngineState :=
  if params.gravityStrength ≤ 0 ∨ s.gravityWells = [] then s
  else
    let n := s.pm.pixelPositions.length
    let sampleRate := max 1 (n / 200000)
    setPV s (updateAtIndices (sampleIndices n sampleRate)
      (fun _ pv => gravityOnePixel o s.gravityWells sampleRate pv)
      (s.pm.pixelPositions, s.pm.pixelVelocities))

/-- Inner mirror loop of applyMirrorReflections for one pixel: find the first
chord the pixel would cross next frame (close enough to the line), reflect
the velocity about the chord normal, snap the position past the crossing
point and clamp it into the canvas; at most one reflection per pixel per
frame (the JS break). -/
def mirrorReflectPixel (w h : ℕ) (lines : List MirrorLine)
    (p : PixelPos) (v : Vel) : PixelPos × Vel :=
  match lines with
  | [] => (p, v)
  | ml :: rest =>
    let currentDist := ml.a * p.x + ml.b * p.y + ml.c
    let nextDist := ml.a * (p.x + v.x) + ml.b * (p.y + v.y) + ml.c
    if currentDist * nextDist < 0 ∧ |currentDist| < 50 then
      let denominator := currentDist - nextDist
      if |denominator| < 0.001 then mirrorReflectPixel w h rest p v
      else
        let t := |currentDist| / |denominator|
        let intersectX := p.x + t * v.x
        let intersectY := p.y + t * v.y
        if intersectX < 0 ∨ (w : ℚ) ≤ intersectX ∨
            intersectY < 0 ∨ (h : ℚ) ≤ intersectY then
          mirrorReflectPixel w h rest p v
        else
          let dotProduct := v.x * ml.normalX + v.y * ml.normalY
          let reflectedVelX := v.x - 2 * dotProduct * ml.normalX
          let reflectedVelY := v.y - 2 * dotProduct * ml.normalY
          let px2 := max 1 (min ((w : ℚ) - 1) (intersectX + ml.normalX * 2))
          let py2 := max 1 (min ((h : ℚ) - 1) (intersectY + ml.normalY * 2))
          ({ p with x := px2, y := py2 }, ⟨reflectedVelX, reflectedVelY⟩)
    else mirrorReflectPixel w h rest p v

/-- MovementEngine.applyMirrorReflections: no-op when the mirror count is not
positive or no chords exist; otherwise reflect every sampleRate-th pixel that
moves fast enough (speed ≥ 0.5). -/
def applyMirrorReflections (params : EngineParams) (o : Oracles)
    (s : EngineState) : EngineState :=
  if params.randomMirrors ≤ 0 ∨ s.mirrorLines = [] then s
  else
    let n := s.pm.pixelPositions.length
    let sampleRate := max 1 (n / 10000)
    setPV s (updateAtIndices (sampleIndices n sampleRate)
      (fun _ pv =>
        let speed := o.sqrtF (pv.2.x * pv.2.x + pv.2.y * pv.2.y)
        if speed < 1 / 2 then pv
        else mirrorReflectPixel s.pm.width s.pm.height s.mirrorLines pv.1 pv.2)
      (s.pm.pixelPositions, s.pm.pixelVelocities))

/-- Random distinct index collection (the JS while loop filling a Set with
floor(random·total) until it has the target size), fuel-bounded; returns the
chosen indices in insertion order together with the advanced random
counter. -/
def pickDistinct (o : Oracles) (total target : ℕ) :
    ℕ → ℕ → List ℕ → List ℕ × ℕ
  | 0, k, acc => (acc, k)
  | fuel + 1, k, acc =>
    if target ≤ acc.length then (acc, k)
    else
      let idx := (⌊o.rand k * total⌋).toNat
      pickDistinct o total target fuel (k + 1)
        (if idx ∈ acc then acc else acc ++ [idx])

/-- Scatter application to one selected pixel: overwrite the velocity with a
fresh random high-speed direction and jump the position along the same
angle. -/
def scatterOnePixel (params : EngineParams) (o : Oracles) (angleCtr : ℕ)
    (pv : PixelPos × Vel) : PixelPos × Vel :=
  let angle := o.rand angleCtr * o.piQ * 2
  let scatterSpeed := 10 + params.movementSpeed * 5
  let scatterVelX := o.cosF angle * scatterSpeed
  let scatterVelY := o.sinF angle * scatterSpeed
  let jumpDistance := 40 + params.scatterStrength * 2
  ({ pv.1 with x := pv.1.x + o.cosF angle * jumpDistance,
               y := pv.1.y + o.sinF angle * jumpDistance },
   ⟨scatterVelX, scatterVelY⟩)

/-- MovementEngine.applyScatterForces (part_002): no-op when the scatter
strength is not positive; otherwise, every 3rd frame, give a random subset of
pixels (strength% / 3 of them) fresh random velocities and position jumps. -/
def applyScatterForces (params : EngineParams) (o : Oracles)
    (s : EngineState) : EngineState :=
  if params.scatterStrength ≤ 0 then s
  else if s.frameCount % 3 ≠ 0 then s
  else
    let totalPixels := s.pm.pixelPositions.length
    let scatterCount := (⌊params.scatterStrength / 100 * totalPixels / 3⌋).toNat
    if scatterCount = 0 then s
    else
      let picked := pickDistinct o totalPixels scatterCount o.fuel 0 []
      setPV s ((picked.1.enum).foldl (fun acc ai =>
        let r := scatterOnePixel params o (picked.2 + ai.1)
          (acc.1.getD ai.2 ⟨0, 0, 0, 0⟩, acc.2.getD ai.2 ⟨0, 0⟩)
        (acc.1.set ai.2 r.1, acc.2.set ai.2 r.2))
        (s.pm.pixelPositions, s.pm.pixelVelocities))

/-- Truncation toward zero, the rounding JavaScript uses for the % operator. -/
def ratTrunc (q : ℚ) : ℤ := if q < 0 then -⌊-q⌋ else ⌊q⌋

/-- JavaScript remainder a % b (sign of the dividend, truncated division). -/
def jsMod (a b : ℚ) : ℚ := a - b * ratTrunc (a / b)

/-- While (angle < 0) angle += twoPi, fuel-bounded. -/
def normAngleUp : ℕ → ℚ → ℚ → ℚ
  | 0, _, a => a
  | fuel + 1, twoPi, a => if a < 0 then normAngleUp fuel twoPi (a + twoPi) else a

/-- While (angle ≥ twoPi) angle -= twoPi, fuel-bounded. -/
def normAngleDown : ℕ → ℚ → ℚ → ℚ
  | 0, _, a => a
  | fuel + 1, twoPi, a =>
    if twoPi ≤ a then normAngleDown fuel twoPi (a - twoPi) else a

/-- MovementEngine.applyScanLineInterference: no-op when the interference
level is not positive (or no canvas); otherwise advance the scan phase and
perturb every sampleRate-th pixel with the four-wave interference pattern,
adding direct position displacement (clamped into the canvas) above
level 3. -/
def applyScanLineInterference (params : EngineParams) (o : Oracles)
    (s : EngineState) : EngineState :=
  if params.scanLineInterference ≤ 0 then s
  else if s.pm.width = 0 ∨ s.pm.height = 0 then s
  else
    let sli := params.scanLineInterference
    let strength := sli / 10
    let scanLineSpacing := max 3 (25 - sli * 2)
    let maxDisplacement := sli * 8
    let interferenceSpeed := 0.08 + strength * 0.15
    let phase1 := s.scanLinePhase + interferenceSpeed
    let phase2 := if o.piQ * 2 < phase1 then phase1 - o.piQ * 2 else phase1
    let n := s.pm.pixelPositions.length
    let sampleRate := max 1 (n / 25000)
    let w := s.pm.width
    let h := s.pm.height
    let upd := updateAtIndices (sampleIndices n sampleRate)
      (fun _ pv =>
        let scanLineIndex : ℤ := ⌊pv.1.y / scanLineSpacing⌋
        let primaryWave := o.sinF (scanLineIndex * 0.3 + phase2)
        let secondaryWave := o.sinF (scanLineIndex * 0.7 + phase2 * 1.5) * 0.7
        let tertiaryWave := o.sinF (scanLineIndex * 1.2 + phase2 * 0.8) * 0.4
        let quaternaryWave := o.sinF (scanLineIndex * 0.15 + phase2 * 2.2) * 0.3
        let combinedWave := primaryWave + secondaryWave + tertiaryWave + quaternaryWave
        let horizontalDisplacement := combinedWave * maxDisplacement * strength
        let verticalJitter := o.sinF (scanLineIndex * 2.1 + phase2 * 2) * 0.5 * strength
        let v2 : Vel := ⟨pv.2.x + horizontalDisplacement * 0.3,
                         pv.2.y + verticalJitter * 0.15⟩
        if 3 < sli then
          let directStrength := (sli - 3) / 7
          let px := pv.1.x + horizontalDisplacement * directStrength * 0.5
          let py := pv.1.y + verticalJitter * directStrength * 0.25
          ({ pv.1 with x := max 0 (min ((w : ℚ) - 1) px),
                       y := max 0 (min ((h : ℚ) - 1) py) }, v2)
        else (pv.1, v2))
      (s.pm.pixelPositions, s.pm.pixelVelocities)
    { setPV s upd with scanLinePhase := phase2 }

/-- Kaleidoscope transformation of one sampled pixel (the body of the
applyKaleidoscopeFractal loop). -/
def kaleidoscopeOnePixel (params : EngineParams) (o : Oracles)
    (w h frameCount : ℕ) (rotation : ℚ) (segments : ℕ)
    (pv : PixelPos × Vel) : PixelPos × Vel :=
  let kf := params.kaleidoscopeFractal
  let strength := kf / 10
  let centerX := (w : ℚ) / 2
  let centerY := (h : ℚ) / 2
  let maxRadius := min (w : ℚ) (h : ℚ) / 2
  let segmentAngle := o.piQ * 2 / (segments : ℚ)
  let deltaX := pv.1.x - centerX
  let deltaY := pv.1.y - centerY
  let radius := o.sqrtF (deltaX * deltaX + deltaY * deltaY)
  if maxRadius < radius ∨ radius < 5 then pv
  else
    let angle0 := o.atan2F deltaY deltaX + rotation
    let angle := normAngleDown o.fuel (o.piQ * 2) (normAngleUp o.fuel (o.piQ * 2) angle0)
    let segmentIndex : ℤ := ⌊angle / segmentAngle⌋
    let angleInSegment := jsMod angle segmentAngle
    let mirrored1 := if segmentIndex % 2 = 0 then segmentAngle - angleInSegment
      else angleInSegment
    let mirroredAngle :=
      if 5 < kf then
        let subSegments := (⌊strength * 4⌋).toNat + 2
        let subSegmentAngle := segmentAngle / (subSegments : ℚ)
        let subIndex : ℤ := ⌊mirrored1 / subSegmentAngle⌋
        let angleInSubSegment := jsMod mirrored1 subSegmentAngle
        if subIndex % 2 = 0 then angleInSubSegment
        else subSegmentAngle - angleInSubSegment
      else mirrored1
    let targetAngle := mirroredAngle + segmentIndex * segmentAngle - rotation
    let targetX := centerX + o.cosF targetAngle * radius
    let targetY := centerY + o.sinF targetAngle * radius
    let forceX := (targetX - pv.1.x) * strength * 0.8
    let forceY := (targetY - pv.1.y) * strength * 0.8
    let v1 : Vel := ⟨pv.2.x + forceX, pv.2.y + forceY⟩
    let p1 : PixelPos :=
      if 3 ≤ kf then
        let directStrength := strength * 0.3
        let px := pv.1.x + forceX * directStrength
        let py := pv.1.y + forceY * directStrength
        { pv.1 with x := max 0 (min ((w : ℚ) - 1) px),
                    y := max 0 (min ((h : ℚ) - 1) py) }
      else pv.1
    let v2 : Vel :=
      if 5 < kf then
        let spiralStrength := (kf - 5) / 5
        let tangentialForce := spiralStrength * 8
        ⟨v1.x + -deltaY / radius * tangentialForce,
         v1.y + deltaX / radius * tangentialForce⟩
      else v1
    let v3 : Vel :=
      if 8 ≤ kf then
        let pulsePhase := (frameCount : ℚ) * 0.1
        let pulseStrength := o.sinF (pulsePhase + radius * 0.05) * 3
        ⟨v2.x + (deltaX / radius) * pulseStrength,
         v2.y + (deltaY / radius) * pulseStrength⟩
      else v2
    (p1, v3)

/-- MovementEngine.applyKaleidoscopeFractal: no-op when the kaleidoscope
level is not positive (or no canvas); otherwise advance the rotation,
recompute the segment count, and pull every sampleRate-th pixel toward its
mirrored position, with direct displacement, spiral and pulse terms at the
higher levels. -/
def applyKaleidoscopeFractal (params : EngineParams) (o : Oracles)
    (s : EngineState) : EngineState :=
  if params.kaleidoscopeFractal ≤ 0 then s
  else if s.pm.width = 0 ∨ s.pm.height = 0 then s
  else
    let strength := params.kaleidoscopeFractal / 10
    let rotation1 := s.kaleidoscopeRotation + 0.08 + strength * 0.12
    let rotation2 := if o.piQ * 2 < rotation1 then rotation1 - o.piQ * 2 else rotation1
    let segments := max 3 (min 12 (⌊3 + strength * 9⌋.toNat))
    let n := s.pm.pixelPositions.length
    let sampleRate := max 1 (n / 35000)
    let upd := updateAtIndices (sampleIndices n sampleRate)
      (fun _ pv => kaleidoscopeOnePixel params o s.pm.width s.pm.height
        s.frameCount rotation2 segments pv)
      (s.pm.pixelPositions, s.pm.pixelVelocities)
    { setPV s upd with kaleidoscopeRotation := rotation2,
                       kaleidoscopeSegments := segments }

/-- Lookup in the trail-history association list. -/
def historyGet (hist : List (ℕ × List (ℚ × ℚ))) (i : ℕ) :
    Option (List (ℚ × ℚ)) :=
  (hist.find? (fun e => e.1 == i)).map Prod.snd

/-- Update or insert in the trail-history association list. -/
def historySet (hist : List (ℕ × List (ℚ × ℚ))) (i : ℕ)
    (v : List (ℚ × ℚ)) : List (ℕ × List (ℚ × ℚ)) :=
  if (hist.find? (fun e => e.1 == i)).isSome then
    hist.map (fun e => if e.1 == i then (e.1, v) else e)
  else hist ++ [(i, v)]

/-- MovementEngine.applyTrails: when disabled, clear the trail selection and
history (particle positions and velocities are never touched by this module);
otherwise refresh the random selection every 600 frames and prepend the
current position to each selected pixel's bounded history. -/
def applyTrails (params : EngineParams) (o : Oracles)
    (s : EngineState) : EngineState :=
  if params.trails ≤ 0 then
    { s with trailPixels := [], trailHistory := [] }
  else if s.pm.pixelPositions = [] then s
  else
    let n := s.pm.pixelPositions.length
    let trailPercentage := params.trails * 0.1
    let target0 := (⌊(n : ℚ) * trailPercentage⌋).toNat
    let targetTrailCount :=
      if params.trails ≤ 3 then min 200 target0
      else if params.trails ≤ 7 then min 500 target0
      else min 800 target0
    let selection :=
      if s.frameCount % 600 = 0 then
        (pickDistinct o n targetTrailCount o.fuel 0 []).1
      else s.trailPixels
    let history1 :=
      if s.frameCount % 600 = 0 then
        s.trailHistory.filter (fun e => selection.contains e.1)
      else s.trailHistory
    let maxTrailLength := (⌊(40 : ℚ) + params.trails * 16⌋).toNat
    let history2 := selection.foldl (fun hist pixelIndex =>
      if n ≤ pixelIndex then hist
      else
        let p := s.pm.pixelPositions.getD pixelIndex ⟨0, 0, 0, 0⟩
        let old := (historyGet hist pixelIndex).getD []
        let entry := (p.x, p.y) :: old
        let entry2 := if maxTrailLength < entry.length then
          entry.take maxTrailLength else entry
        historySet hist pixelIndex entry2) history1
    { s with trailPixels := selection, trailHistory := history2 }

/-- Tag for the auxiliary force modules invoked by MovementEngine.animate. -/
inductive AuxModule where
  | gravity
  | mirror
  | scatter
  | scanLine
  | kaleidoscope
  | trails
  deriving DecidableEq, Repr

/-- Dispatch an auxiliary module tag to its state transformer. -/
def applyAuxModule (m : AuxModule) (params : EngineParams) (o : Oracles)
    (s : EngineState) : EngineState :=
  match m with
  | .gravity => applyGravityForces params o s
  | .mirror => applyMirrorReflections params o s
  | .scatter => applyScatterForces params o s
  | .scanLine => applyScanLineInterference params o s
  | .kaleidoscope => applyKaleidoscopeFractal params o s
  | .trails => applyTrails params o s

/-- Apply a list of auxiliary modules in order. -/
def applyAuxList (ms : List AuxModule) (params : EngineParams) (o : Oracles)
    (s : EngineState) : EngineState :=
  ms.foldl (fun st m => applyAuxModule m params o st) s

/-- Order in which MovementEngine.animate (src/unnamed/part_002) invokes the
auxiliary force modules: gravity before the position update, then mirror
reflections (explicitly BEFORE scatter, per the source comment), scatter,
scan-line interference, kaleidoscope, trails. -/
def animateAuxOrder : List AuxModule :=
  [AuxModule.gravity, AuxModule.mirror, AuxModule.scatter,
   AuxModule.scanLine, AuxModule.kaleidoscope, AuxModule.trails]

/-- Refinement definition following the specification words: the spec claims
the fixed order "gravity → scatter → mirror/kaleidoscope → scan-line →
trails". -/
def specAuxOrder : List AuxModule :=
  [AuxModule.gravity, AuxModule.scatter, AuxModule.mirror,
   AuxModule.kaleidoscope, AuxModule.scanLine, AuxModule.trails]

/-- One animation tick of MovementEngine.animate: flow-field refresh every 30
frames (the generated field enters as an oracle, produced by the PerlinFlow
generators), gravity-well regeneration every 120 frames, gravity forces,
particle position update, then mirror → scatter → scan-line → kaleidoscope →
trails, and the frame counter increment.  Rendering, recording and the
mirror-line debug overlay write no particle state and are omitted. -/
def animateTick (params : EngineParams) (o : Oracles) (deltaTime : ℚ)
    (fieldOracle : ℕ → Option (List FlowCell)) (s : EngineState) : EngineState :=
  let s1 := if s.frameCount % 30 = 0 then
    { s with pm := { s.pm with flowField := fieldOracle s.frameCount } } else s
  let s2 := if s1.frameCount % 120 = 0 then generateGravityWells params o s1 else s1
  let s3 := applyGravityForces params o s2
  let s4 := { s3 with pm := (updatePixelPositions s3.pm o deltaTime
    params.movementSpeed params.brightnessSensitivity) }
  let s5 := applyMirrorReflections params o s4
  let s6 := applyScatterForces params o s5
  let s7 := applyScanLineInterference params o s6
  let s8 := applyKaleidoscopeFractal params o s7
  let s9 := applyTrails params o s8
  { s9 with frameCount := s9.frameCount + 1 }

/-- The same tick with the gravity subsystem removed entirely (no well
regeneration, no gravity force step). -/
def animateTickNoGravity (params : EngineParams) (o : Oracles) (deltaTime : ℚ)
    (fieldOracle : ℕ → Option (List FlowCell)) (s : EngineState) : EngineState :=
  let s1 := if s.frameCount % 30 = 0 then
    { s with pm := { s.pm with flowField := fieldOracle s.frameCount } } else s
  let s4 := { s1 with pm := (updatePixelPositions s1.pm o deltaTime
    params.movementSpeed params.brightnessSensitivity) }
  let s5 := applyMirrorReflections params o s4
  let s6 := applyScatterForces params o s5
  let s7 := applyScanLineInterference params o s6
  let s8 := applyKaleidoscopeFractal params o s7
  let s9 := applyTrails params o s8
  { s9 with frameCount := s9.frameCount + 1 }

theorem setWells_nil_eq (s : EngineState) (h : s.gravityWells = []) :
    { s with gravityWells := [] } = s := by
  cases s
  simp only at h
  simp [h]

/-- C3 counterexample: the order claimed by the specification (gravity →
scatter → mirror/kaleidoscope → scan-line → trails) differs from the order
the code applies (animate runs mirror before scatter and scan-line before
kaleidoscope). -/
theorem spec_aux_order_ne_code : specAuxOrder ≠ animateAuxOrder := by
  decide

/-- C3 amended.  In every tick the auxiliary modules run in the fixed order
gravity → (position update) → mirror → scatter → scan-line → kaleidoscope →
trails, and each module leaves all particle positions and velocities
unchanged when its strength parameter is 0 (the trails module clears only its
own selection and history). -/
theorem aux_modules_order_and_noop_at_zero :
    (∀ (params : EngineParams) (o : Oracles) (deltaTime : ℚ)
        (fieldOracle : ℕ → Option (List FlowCell)) (s : EngineState),
      animateTick params o deltaTime fieldOracle s =
        (let s1 := if s.frameCount % 30 = 0 then
            { s with pm := { s.pm with flowField := fieldOracle s.frameCount } } else s
         let s2 := if s1.frameCount % 120 = 0 then
            generateGravityWells params o s1 else s1
         let s3 := applyAuxList (animateAuxOrder.take 1) params o s2
         let s4 := { s3 with pm := (updatePixelPositions s3.pm o deltaTime
            params.movementSpeed params.brightnessSensitivity) }
         let s9 := applyAuxList (animateAuxOrder.drop 1) params o s4
         { s9 with frameCount := s9.frameCount + 1 })) ∧
    (∀ (params : EngineParams) (o : Oracles) (s : EngineState),
      params.gravityStrength = 0 → applyGravityForces params o s = s) ∧
    (∀ (params : EngineParams) (o : Oracles) (s : EngineState),
      params.randomMirrors = 0 → applyMirrorReflections params o s = s) ∧
    (∀ (params : EngineParams) (o : Oracles) (s : EngineState),
      params.scatterStrength = 0 → applyScatterForces params o s = s) ∧
    (∀ (params : EngineParams) (o : Oracles) (s : EngineState),
      params.scanLineInterference = 0 → applyScanLineInterference params o s = s) ∧
    (∀ (params : EngineParams) (o : Oracles) (s : EngineState),
      params.kaleidoscopeFractal = 0 → applyKaleidoscopeFractal params o s = s) ∧
    (∀ (params : EngineParams) (o : Oracles) (s : EngineState),
      params.trails = 0 → (applyTrails params o s).pm = s.pm) := by
  refine ⟨?_, ?_, ?_, ?_, ?_, ?_, ?_⟩
  · intro params o deltaTime fieldOracle s
    rfl
  · intro params o s h
    unfold applyGravityForces
    rw [if_pos (Or.inl (le_of_eq h))]
  · intro params o s h
    unfold applyMirrorReflections
    rw [if_pos (Or.inl (le_of_eq h))]
  · intro params o s h
    unfold applyScatterForces
    rw [if_pos (le_of_eq h)]
  · intro params o s h
    unfold applyScanLineInterference
    rw [if_pos (le_of_eq h)]
  · intro params o s h
    unfold applyKaleidoscopeFractal
    rw [if_pos (le_of_eq h)]
  · intro params o s h
    unfold applyTrails
    rw [if_pos (le_of_eq h)]

/-- C3 witness: every module with its strength 0 leaves a concrete one-pixel
state untouched (trails: its particle state). -/
theorem aux_modules_order_and_noop_at_zero_witness :
    applyGravityForces ⟨1, 1, 0, 5, 5, 5, 5, 5⟩
      ⟨fun _ => 0, fun q => q, fun _ => 0, fun _ => 0, fun _ _ => 0, fun _ => 0, 3, 2⟩
      ⟨⟨[], [], 2, 2, [⟨1, 1, 1, 1⟩], [⟨0, 0⟩], [], [], none, 0⟩,
        [⟨1, 1, 1⟩], [], 0, 0, 6, 0, [], []⟩ =
      ⟨⟨[], [], 2, 2, [⟨1, 1, 1, 1⟩], [⟨0, 0⟩], [], [], none, 0⟩,
        [⟨1, 1, 1⟩], [], 0, 0, 6, 0, [], []⟩ ∧
    applyScatterForces ⟨1, 1, 5, 0, 5, 5, 5, 5⟩
      ⟨fun _ => 0, fun q => q, fun _ => 0, fun _ => 0, fun _ _ => 0, fun _ => 0, 3, 2⟩
      ⟨⟨[], [], 2, 2, [⟨1, 1, 1, 1⟩], [⟨0, 0⟩], [], [], none, 0⟩,
        [⟨1, 1, 1⟩], [], 0, 0, 6, 0, [], []⟩ =
      ⟨⟨[], [], 2, 2, [⟨1, 1, 1, 1⟩], [⟨0, 0⟩], [], [], none, 0⟩,
        [⟨1, 1, 1⟩], [], 0, 0, 6, 0, [], []⟩ ∧
    (applyTrails ⟨1, 1, 5, 5, 5, 5, 5, 0⟩
      ⟨fun _ => 0, fun q => q, fun _ => 0, fun _ => 0, fun _ _ => 0, fun _ => 0, 3, 2⟩
      ⟨⟨[], [], 2, 2, [⟨1, 1, 1, 1⟩], [⟨0, 0⟩], [], [], none, 0⟩,
        [⟨1, 1, 1⟩], [], 0, 0, 6, 0, [], []⟩).pm =
      (⟨⟨[], [], 2, 2, [⟨1, 1, 1, 1⟩], [⟨0, 0⟩], [], [], none, 0⟩,
        [⟨1, 1, 1⟩], [], 0, 0, 6, 0, [], []⟩ : EngineState).pm :=
  ⟨aux_modules_order_and_noop_at_zero.2.1 ⟨1, 1, 0, 5, 5, 5, 5, 5⟩
      ⟨fun _ => 0, fun q => q, fun _ => 0, fun _ => 0, fun _ _ => 0, fun _ => 0, 3, 2⟩
      ⟨⟨[], [], 2, 2, [⟨1, 1, 1, 1⟩], [⟨0, 0⟩], [], [], none, 0⟩,
        [⟨1, 1, 1⟩], [], 0, 0, 6, 0, [], []⟩ rfl,
   aux_modules_order_and_noop_at_zero.2.2.2.1 ⟨1, 1, 5, 0, 5, 5, 5, 5⟩
      ⟨fun _ => 0, fun q => q, fun _ => 0, fun _ => 0, fun _ _ => 0, fun _ => 0, 3, 2⟩
      ⟨⟨[], [], 2, 2, [⟨1, 1, 1, 1⟩], [⟨0, 0⟩], [], [], none, 0⟩,
        [⟨1, 1, 1⟩], [], 0, 0, 6, 0, [], []⟩ rfl,
   aux_modules_order_and_noop_at_zero.2.2.2.2.2.2 ⟨1, 1, 5, 5, 5, 5, 5, 0⟩
      ⟨fun _ => 0, fun q => q, fun _ => 0, fun _ => 0, fun _ _ => 0, fun _ => 0, 3, 2⟩
      ⟨⟨[], [], 2, 2, [⟨1, 1, 1, 1⟩], [⟨0, 0⟩], [], [], none, 0⟩,
        [⟨1, 1, 1⟩], [], 0, 0, 6, 0, [], []⟩ rfl⟩

/-- C8.  With gravity well strength 0 (and the wells already cleared, which
is what setting the strength does), one tick is identical to the same tick
with gravity removed entirely: the well list regenerates to empty and the
gravity step writes nothing. -/
theorem gravity_zero_tick (params : EngineParams) (o : Oracles)
    (deltaTime : ℚ) (fieldOracle : ℕ → Option (List FlowCell))
    (s : EngineState) (hg : params.gravityStrength = 0)
    (hw : s.gravityWells = []) :
    animateTick params o deltaTime fieldOracle s =
      animateTickNoGravity params o deltaTime fieldOracle s ∧
    generateGravityWells params o s = { s with gravityWells := [] } ∧
    applyGravityForces params o s = s := by
  have hgle : params.gravityStrength ≤ 0 := le_of_eq hg
  have hwells : ∀ s2 : EngineState, generateGravityWells params o s2 =
      { s2 with gravityWells := [] } := by
    intro s2
    unfold generateGravityWells
    rw [if_pos (Or.inr (Or.inr hgle))]
  have hforce : ∀ s2 : EngineState, applyGravityForces params o s2 = s2 := by
    intro s2
    unfold applyGravityForces
    rw [if_pos (Or.inl hgle)]
  refine ⟨?_, hwells s, hforce s⟩
  simp only [animateTick, animateTickNoGravity]
  generalize hA : (if s.frameCount % 30 = 0 then
    { s with pm := { s.pm with flowField := fieldOracle s.frameCount } } else s) = s1A
  have hw1 : s1A.gravityWells = [] := by
    rw [← hA]
    by_cases h30 : s.frameCount % 30 = 0
    · rw [if_pos h30]
      exact hw
    · rw [if_neg h30]
      exact hw
  have hs2 : (if s1A.frameCount % 120 = 0 then
      generateGravityWells params o s1A else s1A) = s1A := by
    by_cases h120 : s1A.frameCount % 120 = 0
    · rw [if_pos h120, hwells s1A]
      exact setWells_nil_eq s1A hw1
    · rw [if_neg h120]
  rw [hs2, hforce s1A]

/-- C8 witness: at gravity strength 0 a concrete one-pixel state ticks
identically with and without the gravity subsystem. -/
theorem gravity_zero_tick_witness :
    animateTick ⟨1, 1, 0, 0, 0, 0, 0, 0⟩
      ⟨fun _ => 0, fun q => q, fun _ => 0, fun _ => 0, fun _ _ => 0, fun _ => 0, 3, 2⟩
      1 (fun _ => none)
      ⟨⟨[], [], 2, 2, [⟨1, 1, 1, 1⟩], [⟨0, 0⟩], [], [], none, 0⟩,
        [], [], 0, 0, 6, 0, [], []⟩ =
    animateTickNoGravity ⟨1, 1, 0, 0, 0, 0, 0, 0⟩
      ⟨fun _ => 0, fun q => q, fun _ => 0, fun _ => 0, fun _ _ => 0, fun _ => 0, 3, 2⟩
      1 (fun _ => none)
      ⟨⟨[], [], 2, 2, [⟨1, 1, 1, 1⟩], [⟨0, 0⟩], [], [], none, 0⟩,
        [], [], 0, 0, 6, 0, [], []⟩ :=
  (gravity_zero_tick ⟨1, 1, 0, 0, 0, 0, 0, 0⟩
    ⟨fun _ => 0, fun q => q, fun _ => 0, fun _ => 0, fun _ _ => 0, fun _ => 0, 3, 2⟩
    1 (fun _ => none)
    ⟨⟨[], [], 2, 2, [⟨1, 1, 1, 1⟩], [⟨0, 0⟩], [], [], none, 0⟩,
      [], [], 0, 0, 6, 0, [], []⟩ rfl rfl).1

/-! ### Field generators over ℝ (PerlinFlow): vortex, magnetic, black hole.

These generators are inherently transcendental (sqrt, exp, atan2, sin, cos,
π), so they are embedded over the Mathlib reals; the unseeded randomness that
creates poles and centers is extracted into explicit inputs (pole list,
black-hole center), exactly the values Math.random produced in the source. -/

noncomputable section

/-- Gradient table of PerlinFlow.generateGradients: 8 unit directions at 45°
steps, repeated cyclically (angles[i % 8] degrees, converted to radians). -/
def perlinGradient (i : ℕ) : ℝ × ℝ :=
  let angle := ((i % 8 : ℕ) : ℝ) * 45 * Real.pi / 180
  (Real.cos angle, Real.sin angle)

/-- PerlinFlow.fade: the quintic t³(6t² − 15t + 10) in Horner form. -/
def fadeR (t : ℝ) : ℝ := t * t * t * (t * (t * 6 - 15) + 10)

/-- PerlinFlow.lerp over ℝ. -/
def lerpR (a b t : ℝ) : ℝ := a + t * (b - a)

/-- PerlinFlow.dotGridGradient: gradient of the hashed cell (hash mod the
256-entry gradient table) dotted with the offset. -/
def dotGridGradient (hash : ℕ) (x y : ℝ) : ℝ :=
  let g := perlinGradient (hash % 256)
  g.1 * x + g.2 * y

/-- PerlinFlow.noise2D with the (shuffled, duplicated) permutation table as
input.  Math.floor(x) & 255 is the non-negative remainder modulo 256. -/
def noise2D (perm : List ℕ) (x y : ℝ) : ℝ :=
  let xi := (⌊x⌋ % 256).toNat
  let yi := (⌊y⌋ % 256).toNat
  let xf := x - ⌊x⌋
  let yf := y - ⌊y⌋
  let u := fadeR xf
  let v := fadeR yf
  let aa := perm.getD (perm.getD xi 0 + yi) 0
  let ab := perm.getD (perm.getD xi 0 + yi + 1) 0
  let ba := perm.getD (perm.getD (xi + 1) 0 + yi) 0
  let bb := perm.getD (perm.getD (xi + 1) 0 + yi + 1) 0
  let g1 := dotGridGradient aa xf yf
  let g2 := dotGridGradient ba (xf - 1) yf
  let g3 := dotGridGradient ab xf (yf - 1)
  let g4 := dotGridGradient bb (xf - 1) (yf - 1)
  lerpR (lerpR g1 g2 u) (lerpR g3 g4 u) v

theorem noise2D_zero (perm : List ℕ) : noise2D perm 0 0 = 0 := by
  unfold noise2D fadeR lerpR dotGridGradient
  norm_num

/-- PerlinFlow.createVortexFlow per grid point: the zero vector exactly at
the center, otherwise a tangential vector (atan2(dy,dx) + π/2, embedded via
the complex argument) scaled by strength·e^(−distance·falloff).  The source
also attaches a redundant distance field, not represented in the vector
record. -/
def vortexVecAt (centerX centerY strength falloff : ℝ) (x y : ℕ) : Vec ℝ :=
  let dx := (x : ℝ) - centerX
  let dy := (y : ℝ) - centerY
  let distance := Real.sqrt (dx * dx + dy * dy)
  if distance = 0 then ⟨0, 0, 0⟩
  else
    let angle := Complex.arg ⟨dx, dy⟩ + Real.pi / 2
    let magnitude := strength * Real.exp (-distance * falloff)
    ⟨Real.cos angle * magnitude, Real.sin angle * magnitude, magnitude⟩

/-- PerlinFlow.createVortexFlow: row-major field of vortex vectors. -/
def createVortexFlow (centerX centerY strength falloff : ℝ) (w h : ℕ) :
    List (Vec ℝ) :=
  (List.range h).flatMap (fun y => (List.range w).map (fun x =>
    vortexVecAt centerX centerY strength falloff x y))

/-- Magnetic pole record (position, charge and individual strength are the
values Math.random produced in createMagneticFlow). -/
structure Pole where
  x : ℝ
  y : ℝ
  charge : ℝ
  strength : ℝ

/-- Polarity mode of createMagneticFlow. -/
inductive Polarity where
  | mixed
  | allPositive
  | allNegative
  deriving DecidableEq, Repr

open Classical in
/-- Closest positive / closest negative pole search of the dipole block
(the JS else-if chain over the pole list, starting from Infinity). -/
def closestPoles (x y : ℝ) (poles : List Pole) :
    Option (Pole × ℝ) × Option (Pole × ℝ) :=
  poles.foldl (fun st pole =>
    let d := Real.sqrt ((x - pole.x) * (x - pole.x) + (y - pole.y) * (y - pole.y))
    if (0 : ℝ) < pole.charge ∧ (match st.1 with
      | none => True
      | some pr => d < pr.2) then (some (pole, d), st.2)
    else if pole.charge < (0 : ℝ) ∧ (match st.2 with
      | none => True
      | some pr => d < pr.2) then (st.1, some (pole, d))
    else st) (none, none)

/-- Dipole curvature term of createMagneticFlow (only in mixed polarity with
at least two poles): a perpendicular component between the closest
opposite-sign poles, blended by relative distance. -/
def dipoleTerm (x y strength : ℝ) (numPoles : ℕ) (polarity : Polarity)
    (poles : List Pole) : ℝ × ℝ :=
  if 2 ≤ numPoles ∧ polarity = Polarity.mixed then
    match closestPoles x y poles with
    | (some cp, some cn) =>
      let dipoleX := cn.1.x - cp.1.x
      let dipoleY := cn.1.y - cp.1.y
      let dipoleDistance := Real.sqrt (dipoleX * dipoleX + dipoleY * dipoleY)
      if 0 < dipoleDistance then
        let posX := x - cp.1.x
        let posY := y - cp.1.y
        let negX := x - cn.1.x
        let negY := y - cn.1.y
        let posDistance := Real.sqrt (posX * posX + posY * posY)
        let negDistance := Real.sqrt (negX * negX + negY * negY)
        let blendFactor := posDistance / (posDistance + negDistance)
        let curveStrength := 2 * strength
        let perpX := -dipoleY / dipoleDistance
        let perpY := dipoleX / dipoleDistance
        (perpX * curveStrength * Real.sin (blendFactor * Real.pi),
         perpY * curveStrength * Real.sin (blendFactor * Real.pi))
      else (0, 0)
    | _ => (0, 0)
  else (0, 0)

/-- PerlinFlow.createMagneticFlow per grid point: inverse-square pole
contributions with the distance < 2 singular clamp, the dipole curvature
term, and the low-amplitude noise term. -/
def magneticVecAt (perm : List ℕ) (poles : List Pole) (numPoles : ℕ)
    (polarity : Polarity) (strength : ℝ) (x y : ℕ) : Vec ℝ :=
  let base := poles.foldl (fun (acc : ℝ × ℝ) pole =>
    let dx := (x : ℝ) - pole.x
    let dy := (y : ℝ) - pole.y
    let distanceSquared := dx * dx + dy * dy
    let distance := Real.sqrt distanceSquared
    if distance < 2 then acc
    else
      let fieldStrength := pole.charge * pole.strength * 100 / max distanceSquared 4
      (acc.1 + (dx / distance) * fieldStrength,
       acc.2 + (dy / distance) * fieldStrength)) (0, 0)
  let dip := dipoleTerm (x : ℝ) (y : ℝ) strength numPoles polarity poles
  let noiseValue := noise2D perm ((x : ℝ) * 0.005) ((y : ℝ) * 0.005)
  let noiseAngle := noiseValue * Real.pi * 0.2
  let tx := base.1 + dip.1 + Real.cos noiseAngle * 0.2 * strength
  let ty := base.2 + dip.2 + Real.sin noiseAngle * 0.2 * strength
  ⟨tx, ty, Real.sqrt (tx * tx + ty * ty)⟩

/-- PerlinFlow.createMagneticFlow: row-major field of magnetic vectors. -/
def createMagneticFlow (perm : List ℕ) (poles : List Pole) (numPoles : ℕ)
    (polarity : Polarity) (strength : ℝ) (w h : ℕ) : List (Vec ℝ) :=
  (List.range h).flatMap (fun y => (List.range w).map (fun x =>
    magneticVecAt perm poles numPoles polarity strength x y))

/-- PerlinFlow.createBlackHoleFlow (superseded iteration, part_000) per grid
point: the zero vector within distance 1 of the black-hole center, otherwise
capped inverse-square gravity blended with a time-rotated orbital term plus
noise. -/
def blackHoleVecAt (perm : List ℕ) (bhX bhY strength timeOffset : ℝ)
    (x y : ℕ) : Vec ℝ :=
  let dx := bhX - (x : ℝ)
  let dy := bhY - (y : ℝ)
  let distance := Real.sqrt (dx * dx + dy * dy)
  if distance < 1 then ⟨0, 0, 0⟩
  else
    let directionX := dx / distance
    let directionY := dy / distance
    let tangentialX := -directionY
    let tangentialY := directionX
    let gravityStrength := min (strength * 200)
      (strength * 50000 / max (distance * distance) 25)
    let orbitalStrength := min (strength * 100) (strength * 8000 / max distance 10)
    let inwardMix := min 0.8 (strength * 0.2)
    let orbitalMix := 1 - inwardMix
    let timeRotation := timeOffset * 0.5
    let rotatedTangentialX := tangentialX * Real.cos timeRotation -
      tangentialY * Real.sin timeRotation
    let rotatedTangentialY := tangentialX * Real.sin timeRotation +
      tangentialY * Real.cos timeRotation
    let finalX := directionX * gravityStrength * inwardMix +
      rotatedTangentialX * orbitalStrength * orbitalMix
    let finalY := directionY * gravityStrength * inwardMix +
      rotatedTangentialY * orbitalStrength * orbitalMix
    let noiseValue := noise2D perm ((x : ℝ) * 0.01 + timeOffset)
      ((y : ℝ) * 0.01 + timeOffset)
    let noiseX := Real.cos (noiseValue * Real.pi * 2) * (strength * 0.5)
    let noiseY := Real.sin (noiseValue * Real.pi * 2) * (strength * 0.5)
    let resultX := finalX + noiseX
    let resultY := finalY + noiseY
    ⟨resultX, resultY, Real.sqrt (resultX * resultX + resultY * resultY)⟩

/-- PerlinFlow.createBlackHoleFlow: row-major field. -/
def createBlackHoleFlow (perm : List ℕ) (bhX bhY strength timeOffset : ℝ)
    (w h : ℕ) : List (Vec ℝ) :=
  (List.range h).flatMap (fun y => (List.range w).map (fun x =>
    blackHoleVecAt perm bhX bhY strength timeOffset x y))

/-- Cellular cell record: position and the pulsed current radius that the
growth step of createCellularFlow computes before the field loop runs (the
source draws x in [0,width), y in [0,height), radius in [8,20) and scales it
by 1 + pulse·0.3). -/
structure Cell where
  x : ℝ
  y : ℝ
  currentRadius : ℝ

/-- PerlinFlow.createCellularFlow (superseded iteration, part_000) per grid
point: for each cell one of three distance bands (core outward flow, membrane
tangential flow, outer inward nutrient flow, every direction divided by
distance + 1) plus a noise term.  The source also attaches a totalInfluence
field, not represented in the vector record. -/
def cellularVecAt (perm : List ℕ) (cells : List Cell)
    (strength timeOffset : ℝ) (x y : ℕ) : Vec ℝ :=
  let base := cells.foldl (fun (acc : ℝ × ℝ) cell =>
    let dx := (x : ℝ) - cell.x
    let dy := (y : ℝ) - cell.y
    let distance := Real.sqrt (dx * dx + dy * dy)
    let cellRadius := cell.currentRadius
    if distance < cellRadius * 0.3 then
      let influence := strength * 0.3
      (acc.1 + dx / (distance + 1) * influence,
       acc.2 + dy / (distance + 1) * influence)
    else if distance < cellRadius then
      let influence := strength * Real.exp (-(distance - cellRadius * 0.7) * 3)
      let tangentX := -dy / (distance + 1)
      let tangentY := dx / (distance + 1)
      let radialX := dx / (distance + 1)
      let radialY := dy / (distance + 1)
      (acc.1 + (tangentX * 0.7 + radialX * 0.3) * influence,
       acc.2 + (tangentY * 0.7 + radialY * 0.3) * influence)
    else if distance < cellRadius * 2 then
      let influence := strength * 0.2 * Real.exp (-(distance - cellRadius) * 0.1)
      (acc.1 + -dx / (distance + 1) * influence,
       acc.2 + -dy / (distance + 1) * influence)
    else acc) (0, 0)
  let noiseValue := noise2D perm ((x : ℝ) * 0.02) ((y : ℝ) * 0.02 + timeOffset * 0.1)
  let noiseAngle := noiseValue * Real.pi
  let tx := base.1 + Real.cos noiseAngle * 0.1 * strength
  let ty := base.2 + Real.sin noiseAngle * 0.1 * strength
  ⟨tx, ty, Real.sqrt (tx * tx + ty * ty)⟩

/-- PerlinFlow.createCellularFlow: row-major field. -/
def createCellularFlow (perm : List ℕ) (cells : List Cell)
    (strength timeOffset : ℝ) (w h : ℕ) : List (Vec ℝ) :=
  (List.range h).flatMap (fun y => (List.range w).map (fun x =>
    cellularVecAt perm cells strength timeOffset x y))

/-- A concrete permutation table (the counterexample below holds for every
table, since noise2D vanishes at the origin regardless of the shuffle). -/
def permZero : List ℕ := List.replicate 512 0

theorem magneticVecAt_example :
    magneticVecAt permZero [⟨0, 0, 1, 1⟩, ⟨0, 10, 1, 1⟩] 2
      Polarity.allPositive 1 0 0 =
      ⟨1 / 5, -1, Real.sqrt (1 / 5 * (1 / 5) + -1 * -1)⟩ := by
  have hdip : dipoleTerm (((0 : ℕ) : ℝ)) (((0 : ℕ) : ℝ)) 1 2 Polarity.allPositive
      [⟨0, 0, 1, 1⟩, ⟨0, 10, 1, 1⟩] = (0, 0) := by
    unfold dipoleTerm
    rw [if_neg (by decide)]
  have hnz : noise2D permZero (((0 : ℕ) : ℝ) * 0.005) (((0 : ℕ) : ℝ) * 0.005) = 0 := by
    rw [show (((0 : ℕ) : ℝ) * 0.005) = 0 by norm_num]
    exact noise2D_zero permZero
  have hs0 : Real.sqrt ((((0 : ℕ) : ℝ) - 0) * (((0 : ℕ) : ℝ) - 0) +
      (((0 : ℕ) : ℝ) - 0) * (((0 : ℕ) : ℝ) - 0)) < 2 := by
    rw [show (((0 : ℕ) : ℝ) - 0) * (((0 : ℕ) : ℝ) - 0) +
      (((0 : ℕ) : ℝ) - 0) * (((0 : ℕ) : ℝ) - 0) = 0 by norm_num]
    rw [Real.sqrt_zero]
    norm_num
  have hs100 : Real.sqrt ((((0 : ℕ) : ℝ) - 0) * (((0 : ℕ) : ℝ) - 0) +
      (((0 : ℕ) : ℝ) - 10) * (((0 : ℕ) : ℝ) - 10)) = 10 := by
    rw [show (((0 : ℕ) : ℝ) - 0) * (((0 : ℕ) : ℝ) - 0) +
      (((0 : ℕ) : ℝ) - 10) * (((0 : ℕ) : ℝ) - 10) = 100 by norm_num]
    rw [show (100 : ℝ) = 10 ^ 2 by norm_num, Real.sqrt_sq (by norm_num : (0 : ℝ) ≤ 10)]
  unfold magneticVecAt
  simp only [List.foldl_cons, List.foldl_nil]
  rw [hdip, hnz]
  rw [if_pos hs0, if_neg (by rw [hs100]; norm_num)]
  rw [hs100]
  have hmax : max ((((0 : ℕ) : ℝ) - 0) * (((0 : ℕ) : ℝ) - 0) +
      (((0 : ℕ) : ℝ) - 10) * (((0 : ℕ) : ℝ) - 10)) 4 = 100 := by
    rw [show (((0 : ℕ) : ℝ) - 0) * (((0 : ℕ) : ℝ) - 0) +
      (((0 : ℕ) : ℝ) - 10) * (((0 : ℕ) : ℝ) - 10) = 100 by norm_num]
    norm_num
  rw [hmax]
  norm_num

theorem cellularVecAt_example :
    (cellularVecAt permZero [⟨0, 0, 10⟩] 1 0 0 0).x = 1 / 10 := by
  have hnz : noise2D permZero (((0 : ℕ) : ℝ) * 0.02)
      (((0 : ℕ) : ℝ) * 0.02 + 0 * 0.1) = 0 := by
    rw [show (((0 : ℕ) : ℝ) * 0.02) = 0 by norm_num,
      show ((0 : ℝ) + 0 * 0.1) = 0 by norm_num]
    exact noise2D_zero permZero
  have hs0 : Real.sqrt ((((0 : ℕ) : ℝ) - 0) * (((0 : ℕ) : ℝ) - 0) +
      (((0 : ℕ) : ℝ) - 0) * (((0 : ℕ) : ℝ) - 0)) = 0 := by
    rw [show (((0 : ℕ) : ℝ) - 0) * (((0 : ℕ) : ℝ) - 0) +
      (((0 : ℕ) : ℝ) - 0) * (((0 : ℕ) : ℝ) - 0) = 0 by norm_num]
    exact Real.sqrt_zero
  unfold cellularVecAt
  simp only [List.foldl_cons, List.foldl_nil]
  rw [hnz, hs0]
  rw [if_pos (by norm_num : (0 : ℝ) < 10 * 0.3)]
  norm_num

/-- C2 counterexample.  In the magnetic generator with two all-positive
poles (at (0,0) and (0,10), unit strength, on a 4×16 canvas so both poles
lie inside [0,w)×[0,h)), the field vector at grid point (0,0) — distance 0
from the first pole — is (0.2, −1), not the zero vector: the singular pole
is skipped by the distance < 2 clamp, but the far pole and the noise term
still contribute.  And in the cellular generator with one cell centered on
grid point (0,0) (current radius 10), the field vector at (0,0) — distance 0
from the cell center — has x-component 0.1, not 0: the core band's
division by distance + 1 is finite and the zero offset contributes nothing,
but the noise term cos(0)·0.1·strength does. -/
theorem magnetic_and_cellular_centers_not_zero_vector :
    (createMagneticFlow permZero [⟨0, 0, 1, 1⟩, ⟨0, 10, 1, 1⟩] 2
        Polarity.allPositive 1 4 16).getD 0 ⟨0, 0, 0⟩ ≠ (⟨0, 0, 0⟩ : Vec ℝ) ∧
    (createCellularFlow permZero [⟨0, 0, 10⟩] 1 0 4 4).getD 0 ⟨0, 0, 0⟩ ≠
      (⟨0, 0, 0⟩ : Vec ℝ) := by
  constructor
  · have hentry : (createMagneticFlow permZero [⟨0, 0, 1, 1⟩, ⟨0, 10, 1, 1⟩] 2
        Polarity.allPositive 1 4 16).getD 0 ⟨0, 0, 0⟩ =
        magneticVecAt permZero [⟨0, 0, 1, 1⟩, ⟨0, 10, 1, 1⟩] 2
          Polarity.allPositive 1 0 0 := rfl
    rw [hentry, magneticVecAt_example]
    intro hcontra
    have hy : (-1 : ℝ) = 0 := congrArg Vec.y hcontra
    norm_num at hy
  · have hentry : (createCellularFlow permZero [⟨0, 0, 10⟩] 1 0 4 4).getD 0
        ⟨0, 0, 0⟩ = cellularVecAt permZero [⟨0, 0, 10⟩] 1 0 0 0 := rfl
    intro hcontra
    rw [hentry] at hcontra
    have hx : (cellularVecAt permZero [⟨0, 0, 10⟩] 1 0 0 0).x = 0 :=
      congrArg Vec.x hcontra
    rw [cellularVecAt_example] at hx
    norm_num at hx

/-- C2 amended.  The vortex generator returns exactly the zero vector at the
grid point on its center, and the black-hole generator returns exactly the
zero vector at every grid point within distance 1 of its center (here: on
the center); the magnetic generator merely skips contributions of poles
closer than distance 2, and the cellular generator divides its flow
directions by distance + 1, so neither evaluates a singular division — but
the vector each produces at a pole location or cell center is in general
nonzero, because the remaining poles or cells and the noise terms still
contribute (see the counterexample). -/
theorem singular_centers_zero :
    (∀ (strength falloff : ℝ) (w h cx cy : ℕ), cx < w → cy < h →
      (createVortexFlow (cx : ℝ) (cy : ℝ) strength falloff w h).getD
        (cy * w + cx) ⟨1, 1, 1⟩ = (⟨0, 0, 0⟩ : Vec ℝ)) ∧
    (∀ (perm : List ℕ) (strength timeOffset : ℝ) (w h cx cy : ℕ),
      cx < w → cy < h →
      (createBlackHoleFlow perm (cx : ℝ) (cy : ℝ) strength timeOffset w h).getD
        (cy * w + cx) ⟨1, 1, 1⟩ = (⟨0, 0, 0⟩ : Vec ℝ)) := by
  have hidx : ∀ w h cx cy : ℕ, cx < w → cy < h →
      cy * w + cx < w * h ∧ (cy * w + cx) % w = cx ∧ (cy * w + cx) / w = cy := by
    intro w h cx cy hcx hcy
    have hwpos : 0 < w := by omega
    refine ⟨?_, ?_, ?_⟩
    · have h3 : (cy + 1) * w ≤ h * w := Nat.mul_le_mul_right w (by omega)
      calc cy * w + cx < (cy + 1) * w := by
            rw [Nat.add_mul, Nat.one_mul]
            omega
        _ ≤ h * w := h3
        _ = w * h := Nat.mul_comm h w
    · rw [Nat.add_comm, Nat.add_mul_mod_self_right]
      exact Nat.mod_eq_of_lt hcx
    · rw [Nat.add_comm, Nat.add_mul_div_right cx cy hwpos,
        Nat.div_eq_of_lt hcx, Nat.zero_add]
  constructor
  · intro strength falloff w h cx cy hcx hcy
    obtain ⟨hlt, hmod, hdiv⟩ := hidx w h cx cy hcx hcy
    rw [show createVortexFlow (cx : ℝ) (cy : ℝ) strength falloff w h =
        (List.range (w * h)).map (fun i =>
          vortexVecAt (cx : ℝ) (cy : ℝ) strength falloff (i % w) (i / w)) from
      flatMap_range_eq_range_mul w (fun y x =>
        vortexVecAt (cx : ℝ) (cy : ℝ) strength falloff x y) h]
    rw [List.getD_eq_getElem?_getD, List.getElem?_map, List.getElem?_range hlt]
    show vortexVecAt (cx : ℝ) (cy : ℝ) strength falloff ((cy * w + cx) % w)
      ((cy * w + cx) / w) = (⟨0, 0, 0⟩ : Vec ℝ)
    rw [hmod, hdiv]
    unfold vortexVecAt
    rw [if_pos ?_]
    have hz : ((cx : ℝ) - cx) * ((cx : ℝ) - cx) +
        ((cy : ℝ) - cy) * ((cy : ℝ) - cy) = 0 := by ring
    rw [hz, Real.sqrt_zero]
  · intro perm strength timeOffset w h cx cy hcx hcy
    obtain ⟨hlt, hmod, hdiv⟩ := hidx w h cx cy hcx hcy
    rw [show createBlackHoleFlow perm (cx : ℝ) (cy : ℝ) strength timeOffset w h =
        (List.range (w * h)).map (fun i =>
          blackHoleVecAt perm (cx : ℝ) (cy : ℝ) strength timeOffset (i % w) (i / w)) from
      flatMap_range_eq_range_mul w (fun y x =>
        blackHoleVecAt perm (cx : ℝ) (cy : ℝ) strength timeOffset x y) h]
    rw [List.getD_eq_getElem?_getD, List.getElem?_map, List.getElem?_range hlt]
    show blackHoleVecAt perm (cx : ℝ) (cy : ℝ) strength timeOffset
      ((cy * w + cx) % w) ((cy * w + cx) / w) = (⟨0, 0, 0⟩ : Vec ℝ)
    rw [hmod, hdiv]
    unfold blackHoleVecAt
    rw [if_pos ?_]
    have hz : ((cx : ℝ) - cx) * ((cx : ℝ) - cx) +
        ((cy : ℝ) - cy) * ((cy : ℝ) - cy) = 0 := by ring
    rw [hz, Real.sqrt_zero]
    norm_num

/-- C2 witness: on a 2×2 field with the singular center at grid point (1,1),
both the vortex and the black-hole fields hold the zero vector there. -/
theorem singular_centers_zero_witness :
    (createVortexFlow ((1 : ℕ) : ℝ) ((1 : ℕ) : ℝ) 1 1 2 2).getD (1 * 2 + 1)
        ⟨1, 1, 1⟩ = (⟨0, 0, 0⟩ : Vec ℝ) ∧
    (createBlackHoleFlow [] ((1 : ℕ) : ℝ) ((1 : ℕ) : ℝ) 1 0 2 2).getD (1 * 2 + 1)
        ⟨1, 1, 1⟩ = (⟨0, 0, 0⟩ : Vec ℝ) :=
  ⟨singular_centers_zero.1 1 1 2 2 1 1 (by decide) (by decide),
   singular_centers_zero.2 [] 1 0 2 2 1 1 (by decide) (by decide)⟩

end

end Spec2Proof
